import Mathlib

/-!
# Evoplex: the process manager and the experiment life cycle

A shallow embedding of `src/core/processesmgr.cpp` (class `ProcessesMgr`), of
`src/core/experiment.cpp` (`Experiment::init`, `reset`, `deleteTrials`,
`setExpStatus`, `updateProgressValue`, `removeOutput`, `cloneCachedNodes`) and
of `src/core/project.cpp` (`Project::newExperiment`, `setFilePath`, `init`,
`generateExpId`), followed by the properties established about them.

Conventions of the embedding.

* C++ `int` values are Lean `Int`. Every arithmetic expression of the embedded
  code (`lastKey() + 1`, `threads - m_threads`, `size() < m_threads`) is used
  below only on values for which the C++ computation does not overflow; signed
  overflow has no defined behaviour in C++ and is not modelled.
* A `Simulation*` is an abstract handle, a natural number.
* Signals, calls made on a simulation and tasks handed to the thread pool do
  not change the manager's fields; they are recorded, in program order, in the
  `trace` field of the state.
* `QList<int>` is `List Int`; `QMap<int, Simulation*>` is a key-sorted
  association list.
-/

namespace Evoplex

/-! ## Qt containers used by the process manager -/

/-- A `Simulation*`: an abstract handle. -/
abbrev Simulation := Nat

/-- Embeds `QList<int>::removeAt(i)`, Qt 4 and Qt 5: removes the item at INDEX `i`;
an index outside `0 .. size()-1` leaves the list as it is. -/
def removeAt (l : List Int) (i : Int) : List Int :=
  if 0 ≤ i ∧ i < (l.length : Int) then l.eraseIdx i.toNat else l

/-- Embeds `QMap<int, Simulation*>`: entries in ascending key order. -/
abbrev QMap := List (Int × Simulation)

/-- Embeds `QMap::contains(key)`. -/
def QMap.contains (m : QMap) (k : Int) : Bool :=
  m.any (fun e => e.1 == k)

/-- Embeds `QMap::value(key)`: the value stored under `key`, if any. -/
def QMap.value (m : QMap) (k : Int) : Option Simulation :=
  (m.find? (fun e => e.1 == k)).map Prod.snd

/-- Embeds `QMap::key(value, defaultKey)`: the first key (ascending) mapped to
`value`, or `defaultKey` when there is none. -/
def QMap.key (m : QMap) (v : Simulation) (defaultKey : Int) : Int :=
  match m.find? (fun e => e.2 == v) with
  | some e => e.1
  | none => defaultKey

/-- Embeds `QMap::lastKey()`: the largest key; `none` on an empty map, where the Qt
call is not defined. -/
def QMap.lastKey (m : QMap) : Option Int :=
  m.getLast?.map Prod.fst

/-- Embeds `QMap::insert(key, value)`: replaces the value of an existing key,
otherwise inserts the entry at its place in key order. -/
def QMap.insert : QMap → Int → Simulation → QMap
  | [], k, v => [(k, v)]
  | (k', v') :: rest, k, v =>
    if k < k' then (k, v) :: (k', v') :: rest
    else if k = k' then (k, v) :: rest
    else (k', v') :: QMap.insert rest k v

/-- The map left by `QMap::take(key)`: the entry of `key` is removed. -/
def QMap.remove (m : QMap) (k : Int) : QMap :=
  m.filter (fun e => !(e.1 == k))

/-- Embeds `QMap::keys()`: all keys in ascending order. -/
def QMap.keys (m : QMap) : List Int :=
  m.map Prod.fst

/-! ## The process manager (`processesmgr.cpp`) -/

/-- What the manager does to the outside world, in program order. -/
inductive Effect where
  /-- Embeds `emit newProcess(id)` -/
  | newProcess (id : Int)
  /-- Embeds `emit killed(id)` -/
  | killed (id : Int)
  /-- Embeds `sim->setProcessId(id)` -/
  | setProcessId (sim : Simulation) (id : Int)
  /-- a watcher is created and `QtConcurrent::run(this, runThread, id)` is
  handed to the thread pool -/
  | taskSubmitted (id : Int)
  /-- Embeds `qWarning()` about playing a nonexistent process -/
  | warnNonexistent (id : Int)
  /-- Embeds `sim->pause()` -/
  | simPause (sim : Simulation)
  /-- Embeds `sim->pauseAt(step)` -/
  | simPauseAt (sim : Simulation) (step : Nat)
  /-- Embeds `sim->stop()` -/
  | simStop (sim : Simulation)
  /-- Embeds `sim->stopAt(step)` -/
  | simStopAt (sim : Simulation) (step : Nat)
  /-- Embeds `delete sim` for the simulation taken out of `m_processes` -/
  | simDeleted (sim : Simulation)
  deriving DecidableEq, Repr

/-- The fields of `ProcessesMgr`, and the trace of its effects. -/
structure ProcessesMgr where
  m_processes : QMap
  m_runningProcesses : List Int
  m_queuedProcesses : List Int
  m_processesToKill : List Int
  m_threads : Int
  trace : List Effect
  deriving DecidableEq, Repr

namespace ProcessesMgr

/-- The manager right after construction with `threads` worker threads (the
constructor takes `QThread::idealThreadCount()`). -/
def initial (threads : Int) : ProcessesMgr :=
  { m_processes := [], m_runningProcesses := [], m_queuedProcesses := [],
    m_processesToKill := [], m_threads := threads, trace := [] }

/-- Embeds `int ProcessesMgr::add(Simulation* sim)`: the new state and the returned
process id. -/
def add (s : ProcessesMgr) (sim : Simulation) : ProcessesMgr × Int :=
  let processId := QMap.key s.m_processes sim (-1)
  if processId = -1 then
    let processId := match QMap.lastKey s.m_processes with
      | none => 0
      | some k => k + 1
    ({ s with m_processes := QMap.insert s.m_processes processId sim,
              trace := s.trace ++ [Effect.setProcessId sim processId,
                                   Effect.newProcess processId] }, processId)
  else
    ({ s with trace := s.trace ++ [Effect.newProcess processId] }, processId)

/-- Embeds `void ProcessesMgr::play(int processId)`. -/
def play (s : ProcessesMgr) (processId : Int) : ProcessesMgr :=
  if s.m_runningProcesses.contains processId
      && s.m_queuedProcesses.contains processId then s
  else if !QMap.contains s.m_processes processId then
    { s with trace := s.trace ++ [Effect.warnNonexistent processId] }
  else if (s.m_runningProcesses.length : Int) < s.m_threads then
    { s with m_runningProcesses := s.m_runningProcesses ++ [processId],
             trace := s.trace ++ [Effect.taskSubmitted processId],
             m_queuedProcesses := removeAt s.m_queuedProcesses processId }
  else
    { s with m_queuedProcesses := s.m_queuedProcesses ++ [processId] }

/-- Embeds `void ProcessesMgr::play(QList<int> processIds)`. -/
def playList (s : ProcessesMgr) (processIds : List Int) : ProcessesMgr :=
  processIds.foldl play s

/-- Embeds `int ProcessesMgr::addAndPlay(Simulation* sim)`. -/
def addAndPlay (s : ProcessesMgr) (sim : Simulation) : ProcessesMgr × Int :=
  let r := s.add sim
  (r.1.play r.2, r.2)

/-- The call `m_processes.value(processId)->f()` shared by `pause`, `pauseAt`,
`stop` and `stopAt`, behind their common guard. -/
def forward (s : ProcessesMgr) (processId : Int) (f : Simulation → Effect) :
    ProcessesMgr :=
  if !s.m_runningProcesses.contains processId
      || !QMap.contains s.m_processes processId then s
  else
    match QMap.value s.m_processes processId with
    | some sim => { s with trace := s.trace ++ [f sim] }
    | none => s

/-- Embeds `void ProcessesMgr::pause(int processId)`. -/
def pause (s : ProcessesMgr) (processId : Int) : ProcessesMgr :=
  s.forward processId Effect.simPause

/-- Embeds `void ProcessesMgr::pauseAt(int processId, quint64 step)`. -/
def pauseAt (s : ProcessesMgr) (processId : Int) (step : Nat) : ProcessesMgr :=
  s.forward processId (fun sim => Effect.simPauseAt sim step)

/-- Embeds `void ProcessesMgr::stop(int processId)`. -/
def stop (s : ProcessesMgr) (processId : Int) : ProcessesMgr :=
  s.forward processId Effect.simStop

/-- Embeds `void ProcessesMgr::stopAt(int processId, quint64 step)`. -/
def stopAt (s : ProcessesMgr) (processId : Int) (step : Nat) : ProcessesMgr :=
  s.forward processId (fun sim => Effect.simStopAt sim step)

/-- Embeds `void ProcessesMgr::kill(int id)`. -/
def kill (s : ProcessesMgr) (id : Int) : ProcessesMgr :=
  let s1 : ProcessesMgr :=
    if s.m_runningProcesses.contains id then
      { s with m_processesToKill := s.m_processesToKill ++ [id] }
    else
      { s with m_processesToKill := removeAt s.m_processesToKill id,
               m_processes := QMap.remove s.m_processes id,
               trace := s.trace
                 ++ (match QMap.value s.m_processes id with
                     | some sim => [Effect.simDeleted sim]
                     | none => [])
                 ++ [Effect.killed id] }
  { s1 with m_queuedProcesses := removeAt s1.m_queuedProcesses id }

/-- Embeds `void ProcessesMgr::killAll()`. -/
def killAll (s : ProcessesMgr) : ProcessesMgr :=
  (QMap.keys s.m_processes).foldl kill s

/-- Embeds `void ProcessesMgr::threadFinished()`, for the watcher whose result
(`runThread` returns the process id) is `id`. -/
def threadFinished (s : ProcessesMgr) (id : Int) : ProcessesMgr :=
  let s1 : ProcessesMgr :=
    { s with m_runningProcesses := removeAt s.m_runningProcesses id }
  let s2 : ProcessesMgr :=
    if s1.m_processesToKill.contains id then s1.kill id else s1
  match s2.m_queuedProcesses with
  | [] => s2
  | first :: _ => s2.play first

/-- The loop of the branch `threads > old` of `setNumThreads`, with at most
`n` iterations left: `takeFirst()` from the queue, then `play`. -/
def admitLoop : Nat → ProcessesMgr → ProcessesMgr
  | 0, s => s
  | n + 1, s =>
    match s.m_queuedProcesses with
    | [] => s
    | id :: rest => admitLoop n (play { s with m_queuedProcesses := rest } id)

/-- The loop of the branch `threads < old` of `setNumThreads`, with at most
`n` iterations left: `takeFirst()` from the running list, `pause`,
`push_front` on the queue. -/
def evictLoop : Nat → ProcessesMgr → ProcessesMgr
  | 0, s => s
  | n + 1, s =>
    match s.m_runningProcesses with
    | [] => s
    | id :: rest =>
      let s1 := pause { s with m_runningProcesses := rest } id
      evictLoop n { s1 with m_queuedProcesses := id :: s1.m_queuedProcesses }

/-- Embeds `void ProcessesMgr::setNumThreads(int threads)`. -/
def setNumThreads (s : ProcessesMgr) (threads : Int) : ProcessesMgr :=
  if s.m_threads = threads then s
  else
    let p := (threads - s.m_threads).natAbs
    let old := s.m_threads
    let s1 : ProcessesMgr := { s with m_threads := threads }
    if threads > old then admitLoop p s1
    else if threads < old then evictLoop p s1
    else s1

end ProcessesMgr

/-- The calls and events that drive the manager. -/
inductive Event where
  | add (sim : Simulation)
  | play (id : Int)
  | pause (id : Int)
  | stop (id : Int)
  | kill (id : Int)
  | killAll
  | setNumThreads (n : Int)
  | threadFinished (id : Int)
  deriving DecidableEq, Repr

/-- The events a caller may issue: a thread count is never negative. -/
def Event.wellFormed : Event → Bool
  | Event.setNumThreads n => decide (0 ≤ n)
  | _ => true

/-- One event applied to the manager. -/
def ProcessesMgr.step (s : ProcessesMgr) : Event → ProcessesMgr
  | Event.add sim => (s.add sim).1
  | Event.play id => s.play id
  | Event.pause id => s.pause id
  | Event.stop id => s.stop id
  | Event.kill id => s.kill id
  | Event.killAll => s.killAll
  | Event.setNumThreads n => s.setNumThreads n
  | Event.threadFinished id => s.threadFinished id

/-- A sequence of events applied in order. -/
def ProcessesMgr.run (s : ProcessesMgr) (es : List Event) : ProcessesMgr :=
  es.foldl ProcessesMgr.step s

/-- The scheduling bound: no more running processes than worker threads. -/
def ProcessesMgr.Bounded (s : ProcessesMgr) : Prop :=
  (s.m_runningProcesses.length : Int) ≤ s.m_threads

/-- The loop of `QList<int> ProcessesMgr::add(QList<Simulation*> sims)` from the
id `id` on: each simulation is stored under the current id, told its id and
announced, and the id is incremented. -/
def ProcessesMgr.addListLoop :
    List Simulation → Int → ProcessesMgr → List Int → ProcessesMgr × List Int
  | [], _, s, processIds => (s, processIds)
  | sim :: rest, id, s, processIds =>
    ProcessesMgr.addListLoop rest (id + 1)
      { s with m_processes := QMap.insert s.m_processes id sim,
               trace := s.trace ++ [Effect.setProcessId sim id, Effect.newProcess id] }
      (processIds ++ [id])

/-- Embeds `QList<int> ProcessesMgr::add(QList<Simulation*> sims)`: the new state
and the returned ids. The first id is `m_processes.lastKey()`; the result is
`none` on an empty map, where that call is not defined. -/
def ProcessesMgr.addList (s : ProcessesMgr) (sims : List Simulation) :
    Option (ProcessesMgr × List Int) :=
  match QMap.lastKey s.m_processes with
  | none => none
  | some id => some (ProcessesMgr.addListLoop sims id s [])

/-! ## The experiment (`experiment.cpp`) -/

/-- Modelled from the spec: the status enumeration, whose declaration
(`experiment.h`) is not among the sources. The spec lists the experiment
statuses Invalid, Unset, Ready, Queued, Running, Finished; the code names
them `INVALID`, `UNSET`, `READY`, `QUEUED`, `RUNNING`, `FINISHED`. -/
inductive Status where
  | INVALID
  | UNSET
  | READY
  | QUEUED
  | RUNNING
  | FINISHED
  deriving DecidableEq, Repr

/-- Modelled from the spec: the graph type tag computed by
`AbstractGraph::enumFromString`, whose declaration is not among the sources:
either `Invalid_Type` (the text is not recognized) or a recognized type. -/
inductive GraphType where
  | Invalid_Type
  | recognized (tag : Nat)
  deriving DecidableEq, Repr

/-- A plugin handle (`const GraphPlugin*`, `const ModelPlugin*`). -/
abbrev PluginPtr := Nat

/-- An output sink handle (`OutputPtr`). -/
abbrev OutputPtr := Nat

/-- Modelled from the spec: what `Experiment` takes from code that is not
among the sources. `enumFromString` is `AbstractGraph::enumFromString`;
`EVOPLEX_MAX_TRIALS` is the constant of that name; `graph` and `model` are
`MainApp::graph(id)` and `MainApp::model(id)`, `none` standing for the null
pointer returned for an id that does not resolve; `defaultStepDelay` is
`MainApp::defaultStepDelay()`. -/
structure Context where
  enumFromString : String → GraphType
  EVOPLEX_MAX_TRIALS : Int
  graph : String → Option PluginPtr
  model : String → Option PluginPtr
  defaultStepDelay : Nat

/-- A file cache of the inputs, as far as `Experiment::init` reads it:
`printableHeader(',', false)` and `output()`. -/
structure Cache where
  printableHeader : String
  output : OutputPtr
  deriving DecidableEq, Repr

/-- The inputs, as far as the experiment reads them: the values of the
general attributes `GENERAL_ATTRIBUTE_GRAPHTYPE` (as text),
`GENERAL_ATTRIBUTE_TRIALS` (`toInt()`), `GENERAL_ATTRIBUTE_GRAPHID`,
`GENERAL_ATTRIBUTE_MODELID`, `GENERAL_ATTRIBUTE_AUTODELETE`,
`GENERAL_ATTRIBUTE_STOPAT`, `OUTPUT_DIR`, and `fileCaches()`. -/
structure ExpInputs where
  graphType : String
  trials : Int
  graphId : String
  modelId : String
  autoDelete : Bool
  stopAt : Int
  outputDir : String
  fileCaches : List Cache
  deriving DecidableEq, Repr

/-- Modelled from the spec: a trial as created by `new Trial(trialId, exp)`;
the class `Trial` is not among the sources. The spec gives a trial an id, a
step counter that starts at 0 and a status that starts as Unset. -/
structure Trial where
  id : Nat
  step : Nat
  status : Status
  deriving DecidableEq, Repr

/-- What the experiment does to the outside world, in program order. -/
inductive ExpEffect where
  /-- Embeds `emit statusChanged(status)` -/
  | statusChanged (status : Status)
  /-- Embeds `emit restarted()` -/
  | restarted
  /-- Embeds `emit progressUpdated()` -/
  | progressUpdated
  /-- Embeds `o->flushAll()` on an output -/
  | flushAll (o : OutputPtr)
  /-- Embeds `qWarning()` with the given text -/
  | warning (text : String)
  deriving DecidableEq, Repr

/-- The fields of `Experiment` read or written by the embedded functions, the
name of the owning project (`m_project->name()`), and the trace of effects.
`m_trials` is the trial map in insertion order; `m_outputs` is the output set;
`m_clonableNodes` lists the ids of the cached nodes. -/
structure Experiment where
  m_id : Int
  projectName : String
  m_inputs : Option ExpInputs
  m_expStatus : Status
  m_graphType : GraphType
  m_numTrials : Int
  m_graphPlugin : Option PluginPtr
  m_modelPlugin : Option PluginPtr
  m_autoDeleteTrials : Bool
  m_filePathPrefix : String
  m_fileHeader : String
  m_outputs : List OutputPtr
  m_trials : List (Nat × Trial)
  m_clonableNodes : List Nat
  m_delay : Nat
  m_stopAt : Int
  m_pauseAt : Int
  m_progress : Nat
  trace : List ExpEffect
  deriving DecidableEq, Repr

namespace Experiment

/-- Embeds `void Experiment::deleteTrials()`. -/
def deleteTrials (e : Experiment) : Experiment :=
  { e with m_trials := [], m_clonableNodes := [] }

/-- The text of the warning of `reset` on a running experiment. -/
def resetWarning : String :=
  "tried to reset a running experiment. You should pause it first."

/-- Embeds `void Experiment::reset()`. The result is `none` where the C++ call does
not return normally: `m_inputs` is null; `m_numTrials` is negative
(`m_trials.reserve(static_cast<size_t>(m_numTrials))` asks for more than the
map can hold and throws); `m_numTrials` is above 65535 (the loop counter
`quint16 trialId` wraps around before it reaches `m_numTrials`). -/
def reset (ctx : Context) (e : Experiment) : Option Experiment :=
  if e.m_expStatus = Status.RUNNING ∨ e.m_expStatus = Status.QUEUED then
    some { e with trace := e.trace ++ [ExpEffect.warning resetWarning] }
  else
    let e1 := e.deleteTrials
    let flushed := e1.trace ++ e1.m_outputs.map ExpEffect.flushAll
    if e1.m_numTrials < 0 ∨ e1.m_numTrials > 65535 then none
    else
      match e1.m_inputs with
      | none => none
      | some inputs =>
        some { e1 with
          m_trials := (List.range e1.m_numTrials.toNat).map
            (fun trialId => (trialId, { id := trialId, step := 0, status := Status.UNSET })),
          m_delay := ctx.defaultStepDelay,
          m_stopAt := inputs.stopAt,
          m_pauseAt := inputs.stopAt,
          m_progress := 0,
          m_expStatus := Status.READY,
          trace := flushed ++ [ExpEffect.statusChanged Status.READY, ExpEffect.restarted] }

/-- The error text of `init` on a running or queued experiment. -/
def errRunning : String :=
  "Tried to initialize a running experiment.\nPlease, pause it and try again."

/-- The error text of `init` for an unrecognized graph type. -/
def errGraphType : String :=
  "the graph type is invalid!"

/-- The error text of `init` for a number of trials out of range:
`QString("number of trials should be >0 and <%1!").arg(EVOPLEX_MAX_TRIALS)`. -/
def errTrials (ctx : Context) : String :=
  "number of trials should be >0 and <" ++ toString ctx.EVOPLEX_MAX_TRIALS ++ "!"

/-- Embeds `m_outputs.insert(o)` on the output set. -/
def insertOutput (outputs : List OutputPtr) (o : OutputPtr) : List OutputPtr :=
  if outputs.contains o then outputs else outputs ++ [o]

/-- The body of `if (!m_inputs->fileCaches().empty())` in `init`: the file
path is `QString("%1/%2_e%3_t")` filled with the output directory, the project
name and the experiment id (written here for a directory and a name that
hold no place marker of their own); the header joins the printable headers
of the caches with commas and ends with a newline. -/
def initFiles (e : Experiment) (inputs : ExpInputs) : Experiment :=
  { e with
    m_filePathPrefix :=
      inputs.outputDir ++ "/" ++ e.projectName ++ "_e" ++ toString e.m_id ++ "_t",
    m_fileHeader :=
      ((inputs.fileCaches.foldl (fun h c => h ++ c.printableHeader ++ ",") "").dropRight 1)
        ++ "\n",
    m_outputs := inputs.fileCaches.foldl (fun os c => insertOutput os c.output) e.m_outputs }

/-- Embeds `bool Experiment::init(ExpInputs* inputs, QString& error)`: the returned
flag, the error text after the call (`error` is the text before it) and the
experiment after the call; `none` where the call does not return normally
(see `reset`). -/
def init (ctx : Context) (e : Experiment) (inputs : ExpInputs) (error : String) :
    Option (Bool × String × Experiment) :=
  if e.m_expStatus = Status.RUNNING ∨ e.m_expStatus = Status.QUEUED then
    some (false, errRunning, { e with trace := e.trace ++ [ExpEffect.warning errRunning] })
  else
    let e1 : Experiment := { e with m_outputs := [], m_inputs := some inputs }
    let e2 : Experiment := { e1 with m_graphType := ctx.enumFromString inputs.graphType }
    if e2.m_graphType = GraphType.Invalid_Type then
      some (false, errGraphType,
            { e2 with trace := e2.trace ++ [ExpEffect.warning errGraphType] })
    else
      let e3 : Experiment := { e2 with m_numTrials := inputs.trials }
      if e3.m_numTrials < 1 ∨ e3.m_numTrials > ctx.EVOPLEX_MAX_TRIALS then
        some (false, errTrials ctx,
              { e3 with trace := e3.trace ++ [ExpEffect.warning (errTrials ctx)] })
      else
        let e4 : Experiment :=
          { e3 with m_graphPlugin := ctx.graph inputs.graphId,
                    m_modelPlugin := ctx.model inputs.modelId,
                    m_autoDeleteTrials := inputs.autoDelete,
                    m_filePathPrefix := "",
                    m_fileHeader := "" }
        let e5 : Experiment :=
          if inputs.fileCaches.isEmpty then e4 else initFiles e4 inputs
        match reset ctx e5 with
        | none => none
        | some e6 => some (true, error, e6)

end Experiment

/-- The experiment is idle: neither running nor queued. -/
def Experiment.idle (e : Experiment) : Prop :=
  e.m_expStatus ≠ Status.RUNNING ∧ e.m_expStatus ≠ Status.QUEUED

instance (e : Experiment) : Decidable e.idle :=
  inferInstanceAs
    (Decidable (e.m_expStatus ≠ Status.RUNNING ∧ e.m_expStatus ≠ Status.QUEUED))

/-! ## More of the experiment: status, progress, outputs -/

namespace Experiment

/-- The experiment as the constructor's initializer list leaves it, before
the constructor calls `init`: `m_inputs` is null and the status is `INVALID`.
The members the constructor does not initialize are given here as zero or
empty. -/
def constructed (id : Int) (projectName : String) : Experiment :=
  { m_id := id, projectName := projectName, m_inputs := none,
    m_expStatus := Status.INVALID, m_graphType := GraphType.Invalid_Type,
    m_numTrials := 0, m_graphPlugin := none, m_modelPlugin := none,
    m_autoDeleteTrials := false, m_filePathPrefix := "", m_fileHeader := "",
    m_outputs := [], m_trials := [], m_clonableNodes := [], m_delay := 0,
    m_stopAt := 0, m_pauseAt := 0, m_progress := 0, trace := [] }

/-- Embeds `void Experiment::setExpStatus(Status s)`. -/
def setExpStatus (e : Experiment) (s : Status) : Experiment :=
  { e with m_expStatus := s, trace := e.trace ++ [ExpEffect.statusChanged s] }

/-- The sum `p` of `updateProgressValue`: over the trials, the step counter
divided by `m_pauseAt`, the arithmetic taken exactly (rationals in place of
`float`). -/
def progressSum (e : Experiment) : ℚ :=
  (e.m_trials.map (fun t => (t.2.step : ℚ) / (e.m_pauseAt : ℚ))).sum

/-- The value `std::ceil(p * 360.f / m_numTrials)` of `updateProgressValue`,
the arithmetic taken exactly. -/
def progressCeil (e : Experiment) : Int :=
  Int.ceil (progressSum e * 360 / (e.m_numTrials : ℚ))

/-- Embeds `void Experiment::updateProgressValue()`, the `float` arithmetic of the
running branch taken exactly. The result is `none` where the C++ value is not
defined: a division by zero (`m_pauseAt` is 0 with a trial to divide for, or
`m_numTrials` is 0), or a ceiling outside `0 .. 65535`, which
`static_cast<quint16>` cannot represent. -/
def updateProgressValue (e : Experiment) : Option Experiment :=
  let lastProgress := e.m_progress
  let updated : Option Experiment :=
    if e.m_expStatus = Status.FINISHED then some { e with m_progress := 360 }
    else if e.m_expStatus = Status.INVALID then some { e with m_progress := 0 }
    else if e.m_expStatus = Status.RUNNING then
      if (e.m_pauseAt = 0 ∧ e.m_trials ≠ []) ∨ e.m_numTrials = 0 then none
      else if progressCeil e < 0 ∨ progressCeil e > 65535 then none
      else some { e with m_progress := (progressCeil e).toNat }
    else some e
  updated.map (fun e1 =>
    if lastProgress ≠ e1.m_progress then
      { e1 with trace := e1.trace ++ [ExpEffect.progressUpdated] }
    else e1)

/-- The warning of `removeOutput` on an experiment that is not `READY`. -/
def warnRemoveRunning : String :=
  "tried to remove an 'Output' from a running experiment. You should pause it first."

/-- The warning of `removeOutput` for an output that is not empty. -/
def warnRemoveUsed : String :=
  "tried to remove an 'Output' that seems to be used somewhere. It should be cleaned first."

/-- The warning of `removeOutput` for an output that is not in the set. -/
def warnRemoveMissing : String :=
  "tried to remove a non-existent 'Output'."

/-- Embeds `bool Experiment::removeOutput(OutputPtr output)`; `outputIsEmpty` is
the value of `output->isEmpty()`. -/
def removeOutput (e : Experiment) (output : OutputPtr) (outputIsEmpty : Bool) :
    Bool × Experiment :=
  if e.m_expStatus ≠ Status.READY then
    (false, { e with trace := e.trace ++ [ExpEffect.warning warnRemoveRunning] })
  else if !outputIsEmpty then
    (false, { e with trace := e.trace ++ [ExpEffect.warning warnRemoveUsed] })
  else if !e.m_outputs.contains output then
    (false, { e with trace := e.trace ++ [ExpEffect.warning warnRemoveMissing] })
  else
    (true, { e with m_outputs := e.m_outputs.erase output })

end Experiment

/-! ## The project (`project.cpp`) -/

/-- Embeds `std::map<int, ExperimentPtr>::count(key)` as a membership test, on
the entries in ascending key order. -/
def stdMapContains {E : Type} (m : List (Int × E)) (k : Int) : Bool :=
  m.any (fun e => e.1 == k)

/-- Embeds `std::map<int, ExperimentPtr>::find(key)`: the experiment stored under
`key`, if any. -/
def stdMapFind {E : Type} (m : List (Int × E)) (k : Int) : Option E :=
  (m.find? (fun e => e.1 == k)).map Prod.snd

/-- Embeds `std::map<int, ExperimentPtr>::insert({key, value})`: a key that is
present keeps its value; a new key is inserted at its place in key order. -/
def stdMapInsert {E : Type} : List (Int × E) → Int → E → List (Int × E)
  | [], k, v => [(k, v)]
  | (k', v') :: rest, k, v =>
    if k < k' then (k, v) :: (k', v') :: rest
    else if k = k' then (k', v') :: rest
    else (k', v') :: stdMapInsert rest k v

/-- The signals of `Project`. -/
inductive ProjectEffect where
  /-- Embeds `emit nameChanged(name)` -/
  | nameChanged (name : String)
  /-- Embeds `emit hasUnsavedChanges(value)` -/
  | hasUnsavedChanges (value : Bool)
  /-- Embeds `emit expAdded(expId)` -/
  | expAdded (expId : Int)
  deriving DecidableEq, Repr

/-- Modelled from the spec: what `Project` takes from code that is not among
the sources or lies outside the program. For experiment objects `E` and
inputs `I`: `expId` is `inputs->general(GENERAL_ATTR_EXPID).toInt()`; `make` is
`std::make_shared<Experiment>(m_mainApp, expId, shared_from_this())`;
`setInputs` is `exp->setInputs(inputs, error)`, giving the returned flag, the
error text after the call and the experiment after the call (the experiment
class of `project.cpp`, with this constructor and `setInputs`, is not among
the sources); `baseName` is `QFileInfo(path).baseName()`. -/
structure ProjectOps (E I : Type) where
  expId : I → Int
  make : Int → E
  setInputs : E → I → String → Bool × String × E
  baseName : String → String

/-- The fields of `Project` used by the embedded functions, whether its
signals are blocked (`blockSignals`), and the trace of the signals emitted. -/
structure Project (E : Type) where
  m_id : Int
  m_name : String
  m_filepath : String
  m_experiments : List (Int × E)
  m_hasUnsavedChanges : Bool
  signalsBlocked : Bool
  trace : List ProjectEffect
  deriving DecidableEq, Repr

namespace Project

/-- One `emit`: recorded unless the signals are blocked. -/
def emit {E : Type} (p : Project E) (signal : ProjectEffect) : Project E :=
  if p.signalsBlocked then p else { p with trace := p.trace ++ [signal] }

/-- Embeds `ExperimentPtr Project::newExperiment(ExpInputsPtr inputs, QString& error)`:
the returned pointer (`none` is null), the error text after the call and the
project after the call. `inputs` is `none` for a null pointer. The map holds
the same object as the one returned, so the entry shows the experiment as
`setInputs` left it. -/
def newExperiment {E I : Type} (ops : ProjectOps E I) (p : Project E)
    (inputs : Option I) (error : String) : Option E × String × Project E :=
  match inputs with
  | none => (none, error ++ "Null inputs!", p)
  | some inp =>
    let expId := ops.expId inp
    if stdMapContains p.m_experiments expId then
      (none, error ++ "The Experiment Id must be unique!", p)
    else
      let r := ops.setInputs (ops.make expId) inp error
      let p1 : Project E :=
        { p with m_experiments := stdMapInsert p.m_experiments expId r.2.2,
                 m_hasUnsavedChanges := true }
      (some r.2.2, r.2.1,
       (p1.emit (ProjectEffect.hasUnsavedChanges true)).emit (ProjectEffect.expAdded expId))

/-- Embeds `void Project::setFilePath(const QString& path)`. -/
def setFilePath {E I : Type} (ops : ProjectOps E I) (p : Project E) (path : String) :
    Project E :=
  let name := p.m_name
  let p1 : Project E :=
    { p with m_filepath := path,
             m_name := if path.isEmpty then "Project" ++ toString p.m_id
                       else ops.baseName path }
  if name ≠ p1.m_name then p1.emit (ProjectEffect.nameChanged p1.m_name) else p1

/-- Embeds `bool Project::init(QString& error, const QString& filepath)`: the
returned flag, the error text after the call and the project after the call.
`importExperiments` stands for the call of `Project::importExperiments`, which
reads the file at `filepath`: from the project and the error text before it,
it gives the project and the error text after it. -/
def init {E I : Type} (ops : ProjectOps E I)
    (importExperiments : Project E → String → String → Project E × String)
    (p : Project E) (error : String) (filepath : String) :
    Bool × String × Project E :=
  let p1 := setFilePath ops p filepath
  let r : Project E × String :=
    if !filepath.isEmpty then
      let imported := importExperiments { p1 with signalsBlocked := true } filepath error
      ({ imported.1 with signalsBlocked := false }, imported.2)
    else (p1, error)
  (!r.2.isEmpty, r.2, { r.1 with m_hasUnsavedChanges := false })

end Project

/-! ## More of the project and of the experiment: fresh ids, cached nodes -/

/-- Embeds `int Project::generateExpId() const`:
`m_experiments.empty() ? 0 : (--m_experiments.end())->first + 1`. The result is
`none` where the addition overflows the C++ `int` (the last key is
2147483647), which has no defined behaviour. -/
def Project.generateExpId {E : Type} (p : Project E) : Option Int :=
  match p.m_experiments.getLast? with
  | none => some 0
  | some last => if last.1 + 1 > 2147483647 then none else some (last.1 + 1)

/-- Embeds `Nodes Experiment::cloneCachedNodes(const int trialId)`: the returned
nodes and the experiment after the call. `clone` stands for `Utils::clone`,
which is not among the sources. -/
def Experiment.cloneCachedNodes (clone : List Nat → List Nat) (e : Experiment)
    (trialId : Int) : List Nat × Experiment :=
  if e.m_clonableNodes.isEmpty then ([], e)
  else if e.m_trials.any
      (fun it => decide ((it.1 : Int) ≠ trialId) && decide (it.2.status = Status.UNSET)) then
    (clone e.m_clonableNodes, e)
  else (e.m_clonableNodes, { e with m_clonableNodes := [] })

/-! ## Concrete data for the experiment -/

/-- A context with the graph types "undirected" and "directed", at most 1000
trials, one graph plugin "squareGrid" and one model plugin "prisonersDilemma". -/
def demoContext : Context :=
  { enumFromString := fun text =>
      if text = "undirected" then GraphType.recognized 0
      else if text = "directed" then GraphType.recognized 1
      else GraphType.Invalid_Type,
    EVOPLEX_MAX_TRIALS := 1000,
    graph := fun id => if id = "squareGrid" then some 1 else none,
    model := fun id => if id = "prisonersDilemma" then some 2 else none,
    defaultStepDelay := 0 }

/-- Inputs that pass every check of `init`: two trials on an undirected
square grid, no file cache. -/
def demoInputs : ExpInputs :=
  { graphType := "undirected", trials := 2, graphId := "squareGrid",
    modelId := "prisonersDilemma", autoDelete := false, stopAt := 10,
    outputDir := "", fileCaches := [] }

/-- An idle experiment in status `READY`: two unset trials, as left by a
successful `init` with `demoInputs`. -/
def demoExperiment : Experiment :=
  { m_id := 0, projectName := "Project0", m_inputs := some demoInputs,
    m_expStatus := Status.READY, m_graphType := GraphType.recognized 0,
    m_numTrials := 2, m_graphPlugin := some 1, m_modelPlugin := some 2,
    m_autoDeleteTrials := false, m_filePathPrefix := "", m_fileHeader := "",
    m_outputs := [],
    m_trials := [(0, { id := 0, step := 0, status := Status.UNSET }),
                 (1, { id := 1, step := 0, status := Status.UNSET })],
    m_clonableNodes := [], m_delay := 0, m_stopAt := 10, m_pauseAt := 10,
    m_progress := 0, trace := [] }

/-- Inputs with a graph type that `demoContext` does not recognize. -/
def demoBadInputs : ExpInputs :=
  { demoInputs with graphType := "hypergraph" }

/-- The experiment `demoExperiment` with one output, of handle 7. -/
def demoExperimentOneOutput : Experiment :=
  { demoExperiment with m_outputs := [7] }

/-- The experiment `demoExperimentOneOutput` after `init` has rejected
`demoBadInputs`. -/
def demoExperimentRejected : Experiment :=
  { demoExperiment with
    m_outputs := [],
    m_inputs := some demoBadInputs,
    m_graphType := GraphType.Invalid_Type,
    trace := [ExpEffect.warning Experiment.errGraphType] }

/-- A running experiment with one trial, at step 20, and `m_pauseAt` 10. -/
def demoRunning : Experiment :=
  { demoExperiment with
    m_expStatus := Status.RUNNING, m_numTrials := 1,
    m_trials := [(0, { id := 0, step := 20, status := Status.RUNNING })] }

/-- A running experiment with two trials, at steps 5 and 10, and `m_pauseAt`
10. -/
def demoRunningHalf : Experiment :=
  { demoExperiment with
    m_expStatus := Status.RUNNING,
    m_trials := [(0, { id := 0, step := 5, status := Status.RUNNING }),
                 (1, { id := 1, step := 10, status := Status.RUNNING })] }

/-- The experiment `demoExperimentOneOutput` in status `FINISHED`. -/
def demoFinishedOneOutput : Experiment :=
  { demoExperimentOneOutput with m_expStatus := Status.FINISHED }

/-! ## Concrete data for the project -/

/-- Project operations over experiments given as (id, inputs accepted) and
inputs given as (id, model id): `setInputs` accepts the model id
"prisonersDilemma" only and reports an error for any other. -/
def demoProjectOps : ProjectOps (Int × Bool) (Int × String) :=
  { expId := fun inputs => inputs.1,
    make := fun id => (id, false),
    setInputs := fun exp inputs error =>
      if inputs.2 = "prisonersDilemma" then (true, error, (exp.1, true))
      else (false, error ++ "unknown model", (exp.1, false)),
    baseName := fun path => path }

/-- A project holding one experiment, of id 0, with no unsaved change. -/
def demoProject : Project (Int × Bool) :=
  { m_id := 0, m_name := "Project0", m_filepath := "",
    m_experiments := [(0, (0, true))], m_hasUnsavedChanges := false,
    signalsBlocked := false, trace := [] }

/-- A project right after construction: no experiment, no name yet. -/
def demoNewProject : Project (Int × Bool) :=
  { m_id := 0, m_name := "", m_filepath := "", m_experiments := [],
    m_hasUnsavedChanges := false, signalsBlocked := false, trace := [] }

/-- An experiment with cached nodes 1, 2, 3 and two trials: trial 0 has
started, trial 1 is still unset. -/
def demoSeeded : Experiment :=
  { demoExperiment with
    m_clonableNodes := [1, 2, 3],
    m_trials := [(0, { id := 0, step := 0, status := Status.RUNNING }),
                 (1, { id := 1, step := 0, status := Status.UNSET })] }

/-! ## Auxiliary facts: containers -/

theorem removeAt_length_le (l : List Int) (i : Int) :
    (removeAt l i).length ≤ l.length := by
  unfold removeAt
  split
  · rw [List.length_eraseIdx]
    split <;> omega
  · exact le_rfl

theorem removeAt_sublist (l : List Int) (i : Int) :
    List.Sublist (removeAt l i) l := by
  unfold removeAt
  split
  · exact List.eraseIdx_sublist l _
  · exact List.Sublist.refl l

/-! ## Auxiliary facts: what each operation does to the fields -/

namespace ProcessesMgr

theorem forward_fields (s : ProcessesMgr) (id : Int) (f : Simulation → Effect) :
    (s.forward id f).m_processes = s.m_processes
    ∧ (s.forward id f).m_runningProcesses = s.m_runningProcesses
    ∧ (s.forward id f).m_queuedProcesses = s.m_queuedProcesses
    ∧ (s.forward id f).m_processesToKill = s.m_processesToKill
    ∧ (s.forward id f).m_threads = s.m_threads := by
  unfold forward
  split
  · simp
  · split <;> simp

theorem play_threads (s : ProcessesMgr) (id : Int) :
    (s.play id).m_threads = s.m_threads := by
  unfold play
  split_ifs <;> rfl

theorem play_bounded (s : ProcessesMgr) (id : Int) (h : s.Bounded) :
    (s.play id).Bounded := by
  unfold Bounded play at *
  split_ifs with h1 h2 h3
  · exact h
  · exact h
  · simp only [List.length_append, List.length_singleton]
    push_cast
    omega
  · exact h

theorem kill_running (s : ProcessesMgr) (id : Int) :
    (s.kill id).m_runningProcesses = s.m_runningProcesses := by
  unfold kill
  split_ifs <;> rfl

theorem kill_threads (s : ProcessesMgr) (id : Int) :
    (s.kill id).m_threads = s.m_threads := by
  unfold kill
  split_ifs <;> rfl

theorem kill_bounded (s : ProcessesMgr) (id : Int) (h : s.Bounded) :
    (s.kill id).Bounded := by
  unfold Bounded at *
  rw [kill_running, kill_threads]
  exact h

theorem foldl_kill_bounded (ids : List Int) (s : ProcessesMgr) (h : s.Bounded) :
    (ids.foldl kill s).Bounded := by
  induction ids generalizing s with
  | nil => exact h
  | cons id rest ih => exact ih _ (kill_bounded s id h)

theorem threadFinished_bounded (s : ProcessesMgr) (id : Int) (h : s.Bounded) :
    (s.threadFinished id).Bounded := by
  have h1 : Bounded { s with m_runningProcesses := removeAt s.m_runningProcesses id } := by
    unfold Bounded at *
    have := removeAt_length_le s.m_runningProcesses id
    simp only
    omega
  have h2 : Bounded
      (if ({ s with m_runningProcesses := removeAt s.m_runningProcesses id } :
            ProcessesMgr).m_processesToKill.contains id
       then kill { s with m_runningProcesses := removeAt s.m_runningProcesses id } id
       else { s with m_runningProcesses := removeAt s.m_runningProcesses id }) := by
    split
    · exact kill_bounded _ _ h1
    · exact h1
  unfold threadFinished
  simp only
  split
  · exact h2
  · exact play_bounded _ _ h2

theorem admitLoop_bounded (n : Nat) (s : ProcessesMgr) (h : s.Bounded) :
    (admitLoop n s).Bounded := by
  induction n generalizing s with
  | zero => exact h
  | succ n ih =>
    unfold admitLoop
    split
    · exact h
    · exact ih _ (play_bounded _ _ h)

/-- The eviction loop, in closed form: `n` iterations drop the first `n`
running ids and stack them, one by one, on the front of the queue. -/
theorem evictLoop_fields (n : Nat) (s : ProcessesMgr) :
    (evictLoop n s).m_runningProcesses = s.m_runningProcesses.drop n
    ∧ (evictLoop n s).m_queuedProcesses
        = (s.m_runningProcesses.take n).reverse ++ s.m_queuedProcesses
    ∧ (evictLoop n s).m_processes = s.m_processes
    ∧ (evictLoop n s).m_processesToKill = s.m_processesToKill
    ∧ (evictLoop n s).m_threads = s.m_threads := by
  induction n generalizing s with
  | zero => simp [evictLoop]
  | succ n ih =>
    unfold evictLoop
    split
    · rename_i hnil
      simp [hnil]
    · rename_i id rest hcons
      obtain ⟨f1, f2, f3, f4, f5⟩ :=
        forward_fields { s with m_runningProcesses := rest } id Effect.simPause
      obtain ⟨g1, g2, g3, g4, g5⟩ := ih
        { pause { s with m_runningProcesses := rest } id with
          m_queuedProcesses :=
            id :: (pause { s with m_runningProcesses := rest } id).m_queuedProcesses }
      simp only [pause] at g1 g2 g3 g4 g5 ⊢
      simp only [f1, f2, f3, f4, f5] at g1 g2 g3 g4 g5 ⊢
      refine ⟨?_, ?_, ?_, ?_, ?_⟩
      · rw [g1, hcons]; simp
      · rw [g2, hcons]; simp
      · rw [g3]
      · rw [g4]
      · rw [g5]

theorem setNumThreads_bounded (s : ProcessesMgr) (n : Int) (hn : 0 ≤ n)
    (h : s.Bounded) : (s.setNumThreads n).Bounded := by
  unfold setNumThreads
  simp only
  split_ifs with h1 h2 h3
  · exact h
  · apply admitLoop_bounded
    unfold Bounded at *
    simp only
    omega
  · unfold Bounded at *
    obtain ⟨g1, -, -, -, g5⟩ :=
      evictLoop_fields (n - s.m_threads).natAbs { s with m_threads := n }
    rw [g1, g5]
    simp only [List.length_drop]
    omega
  · omega

theorem step_bounded (s : ProcessesMgr) (e : Event) (he : e.wellFormed = true)
    (h : s.Bounded) : (s.step e).Bounded := by
  cases e with
  | add sim =>
    unfold Bounded step add at *
    simp only
    split <;> exact h
  | play id => exact play_bounded s id h
  | pause id =>
    unfold Bounded step pause at *
    obtain ⟨-, f2, -, -, f5⟩ := forward_fields s id Effect.simPause
    rw [f2, f5]; exact h
  | stop id =>
    unfold Bounded step stop at *
    obtain ⟨-, f2, -, -, f5⟩ := forward_fields s id Effect.simStop
    rw [f2, f5]; exact h
  | kill id => exact kill_bounded s id h
  | killAll => exact foldl_kill_bounded _ s h
  | setNumThreads n =>
    have hn : 0 ≤ n := by simpa [Event.wellFormed] using he
    exact setNumThreads_bounded s n hn h
  | threadFinished id => exact threadFinished_bounded s id h

theorem run_bounded (es : List Event) (s : ProcessesMgr)
    (hes : ∀ e ∈ es, e.wellFormed = true) (h : s.Bounded) : (s.run es).Bounded := by
  induction es generalizing s with
  | nil => exact h
  | cons e rest ih =>
    have he : e.wellFormed = true := hes e (List.mem_cons_self e rest)
    have hrest : ∀ x ∈ rest, x.wellFormed = true :=
      fun x hx => hes x (List.mem_cons_of_mem e hx)
    exact ih (s.step e) hrest (step_bounded s e he h)

end ProcessesMgr

/-! ## The scheduling bound -/

/-- C1: in every state reached from the initial state (nothing registered,
running, queued or marked; a thread count of at least 0) by any sequence of
add, play, pause, stop, kill, killAll, setNumThreads(n) with n >= 0 and
worker-completion events, the running list is no longer than the thread
count. -/
theorem running_le_threads (threads : Int) (h0 : 0 ≤ threads) (es : List Event)
    (hes : ∀ e ∈ es, e.wellFormed = true) :
    (((ProcessesMgr.initial threads).run es).m_runningProcesses.length : Int)
      ≤ ((ProcessesMgr.initial threads).run es).m_threads :=
  ProcessesMgr.run_bounded es (ProcessesMgr.initial threads) hes
    (by unfold ProcessesMgr.Bounded ProcessesMgr.initial; simpa using h0)

/-- C1, at a concrete run: two worker threads, three simulations played, the
pool shrunk to one thread, one completion. -/
theorem running_le_threads_witness :
    (0 : Int) ≤ 2
    ∧ (∀ e ∈ [Event.add 10, Event.add 11, Event.add 12, Event.play 0,
              Event.play 1, Event.play 2, Event.setNumThreads 1,
              Event.threadFinished 0], e.wellFormed = true)
    ∧ (((ProcessesMgr.initial 2).run
          [Event.add 10, Event.add 11, Event.add 12, Event.play 0,
           Event.play 1, Event.play 2, Event.setNumThreads 1,
           Event.threadFinished 0]).m_runningProcesses.length : Int)
        ≤ ((ProcessesMgr.initial 2).run
          [Event.add 10, Event.add 11, Event.add 12, Event.play 0,
           Event.play 1, Event.play 2, Event.setNumThreads 1,
           Event.threadFinished 0]).m_threads :=
  ⟨by decide, by decide,
   running_le_threads 2 (by decide) _ (by decide)⟩

/-! ## Running and queued lists after a completion -/

/-- C2: the code reaches a state in which a process id is both running and
queued. One worker thread, two simulations: 0 is played and runs, 1 is
played and queues; when the worker of 0 completes, `threadFinished` admits 1
through `play`, whose `m_queuedProcesses.removeAt(processId)` removes by INDEX
1 from the one-element queue, that is nothing. Every event of the run is well
formed. -/
theorem running_queued_overlap :
    (∀ e ∈ [Event.add 10, Event.add 11, Event.play 0, Event.play 1,
            Event.threadFinished 0], e.wellFormed = true)
    ∧ ((ProcessesMgr.initial 1).run
        [Event.add 10, Event.add 11, Event.play 0, Event.play 1,
         Event.threadFinished 0]).m_runningProcesses = [1]
    ∧ ((ProcessesMgr.initial 1).run
        [Event.add 10, Event.add 11, Event.play 0, Event.play 1,
         Event.threadFinished 0]).m_queuedProcesses = [1]
    ∧ ¬ (∀ id : Int,
          ¬ (id ∈ ((ProcessesMgr.initial 1).run
                [Event.add 10, Event.add 11, Event.play 0, Event.play 1,
                 Event.threadFinished 0]).m_runningProcesses
             ∧ id ∈ ((ProcessesMgr.initial 1).run
                [Event.add 10, Event.add 11, Event.play 0, Event.play 1,
                 Event.threadFinished 0]).m_queuedProcesses)) := by
  refine ⟨by decide, by decide, by decide, ?_⟩
  intro h
  exact h 1 (by decide)

/-! ## `play` on an id that is already running -/

/-- C3: `play` on a running id is not a no-op. With two worker threads and
simulation 0 running (state reached by add, play 0), a second `play(0)`
passes the guard `running.contains(id) && queued.contains(id)` (0 is not
queued), appends 0 to the running list again and submits a second worker
task for it. -/
theorem play_running_twice :
    (0 : Int) ∈ ((ProcessesMgr.initial 2).run
        [Event.add 10, Event.play 0]).m_runningProcesses
    ∧ (((ProcessesMgr.initial 2).run [Event.add 10, Event.play 0]).play 0).m_runningProcesses
        = [0, 0]
    ∧ ((ProcessesMgr.initial 2).run [Event.add 10, Event.play 0]).trace
        = [Effect.setProcessId 10 0, Effect.newProcess 0, Effect.taskSubmitted 0]
    ∧ (((ProcessesMgr.initial 2).run [Event.add 10, Event.play 0]).play 0).trace
        = [Effect.setProcessId 10 0, Effect.newProcess 0, Effect.taskSubmitted 0,
           Effect.taskSubmitted 0] := by
  decide

/-! ## `play` with a free worker -/

/-- C4: admitting an id disturbs the queue. In the state with one free worker
thread, simulations 0 and 1 known, nothing running and 1 queued, `play(0)`
appends 0 to the running list and submits its task, and then
`m_queuedProcesses.removeAt(0)` removes the entry at index 0, which is id 1:
the other queued id is lost. In the same state `play(1)` leaves 1 in the
queue (index 1 is out of range). -/
theorem play_admission_queue :
    (ProcessesMgr.play
        { m_processes := [(0, 10), (1, 11)], m_runningProcesses := [],
          m_queuedProcesses := [1], m_processesToKill := [], m_threads := 1,
          trace := [] } 0)
      = { m_processes := [(0, 10), (1, 11)], m_runningProcesses := [0],
          m_queuedProcesses := [], m_processesToKill := [], m_threads := 1,
          trace := [Effect.taskSubmitted 0] }
    ∧ (ProcessesMgr.play
        { m_processes := [(0, 10), (1, 11)], m_runningProcesses := [],
          m_queuedProcesses := [1], m_processesToKill := [], m_threads := 1,
          trace := [] } 1)
      = { m_processes := [(0, 10), (1, 11)], m_runningProcesses := [1],
          m_queuedProcesses := [1], m_processesToKill := [], m_threads := 1,
          trace := [Effect.taskSubmitted 1] } := by
  decide

/-! ## `kill` -/

/-- C5, as stated, fails: with id 0 both running and queued (the state
reached by add, play 0, play 0 on one worker thread), `kill(0)` marks 0 and
then takes it out of the queue (`removeAt`, "just in case"): the queued list
is not as before the call. -/
theorem kill_running_changes_queue :
    ((ProcessesMgr.initial 1).run
        [Event.add 10, Event.play 0, Event.play 0]).m_runningProcesses = [0]
    ∧ ((ProcessesMgr.initial 1).run
        [Event.add 10, Event.play 0, Event.play 0]).m_queuedProcesses = [0]
    ∧ (((ProcessesMgr.initial 1).run
        [Event.add 10, Event.play 0, Event.play 0]).kill 0).m_queuedProcesses = []
    ∧ (((ProcessesMgr.initial 1).run
        [Event.add 10, Event.play 0, Event.play 0]).kill 0).m_queuedProcesses
      ≠ ((ProcessesMgr.initial 1).run
        [Event.add 10, Event.play 0, Event.play 0]).m_queuedProcesses := by
  decide

/-- C5, amended: when id is in the running list, `kill(id)` only marks it:
afterwards id is in toKill, nothing has been emitted (in particular no
killed(id)), the process map and the running list are exactly as before, and
the queued list is a sublist of the queue before the call (entries are
removed at most, never added or reordered). -/
theorem kill_running_marks (s : ProcessesMgr) (id : Int)
    (h : id ∈ s.m_runningProcesses) :
    id ∈ (s.kill id).m_processesToKill
    ∧ (s.kill id).trace = s.trace
    ∧ (s.kill id).m_processes = s.m_processes
    ∧ (s.kill id).m_runningProcesses = s.m_runningProcesses
    ∧ List.Sublist (s.kill id).m_queuedProcesses s.m_queuedProcesses := by
  have hc : s.m_runningProcesses.contains id = true := by simpa using h
  unfold ProcessesMgr.kill
  simp only [hc, if_true]
  exact ⟨by simp, trivial, trivial, trivial, removeAt_sublist _ _⟩

/-- C5, amended, at a concrete state: 0 running, 1 queued. -/
theorem kill_running_marks_witness :
    (0 : Int) ∈ (ProcessesMgr.mk [(0, 10), (1, 11)] [0] [1] [] 1 []).m_runningProcesses
    ∧ (0 : Int) ∈ ((ProcessesMgr.mk [(0, 10), (1, 11)] [0] [1] [] 1 []).kill 0).m_processesToKill
    ∧ ((ProcessesMgr.mk [(0, 10), (1, 11)] [0] [1] [] 1 []).kill 0).trace
        = (ProcessesMgr.mk [(0, 10), (1, 11)] [0] [1] [] 1 []).trace
    ∧ ((ProcessesMgr.mk [(0, 10), (1, 11)] [0] [1] [] 1 []).kill 0).m_processes
        = (ProcessesMgr.mk [(0, 10), (1, 11)] [0] [1] [] 1 []).m_processes
    ∧ ((ProcessesMgr.mk [(0, 10), (1, 11)] [0] [1] [] 1 []).kill 0).m_runningProcesses
        = (ProcessesMgr.mk [(0, 10), (1, 11)] [0] [1] [] 1 []).m_runningProcesses
    ∧ List.Sublist
        ((ProcessesMgr.mk [(0, 10), (1, 11)] [0] [1] [] 1 []).kill 0).m_queuedProcesses
        (ProcessesMgr.mk [(0, 10), (1, 11)] [0] [1] [] 1 []).m_queuedProcesses :=
  ⟨by decide,
   kill_running_marks (ProcessesMgr.mk [(0, 10), (1, 11)] [0] [1] [] 1 []) 0 (by decide)⟩

/-- C6: the completion handler does not destroy a marked process. Two worker
threads; 1 is played, then 0: running is [1, 0]. `kill(0)` marks 0. When the
worker of 0 completes, `m_runningProcesses.removeAt(0)` removes the entry at
index 0, which is id 1; 0 is still in the running list, so the `kill(0)` of
the handler marks it once more instead of destroying it: 0 stays in
processes, in running and (twice) in toKill, and no killed(0) is emitted. -/
theorem completion_keeps_marked_process :
    ((ProcessesMgr.initial 2).run
        [Event.add 10, Event.add 11, Event.play 1, Event.play 0,
         Event.kill 0]).m_runningProcesses = [1, 0]
    ∧ ((ProcessesMgr.initial 2).run
        [Event.add 10, Event.add 11, Event.play 1, Event.play 0,
         Event.kill 0]).m_processesToKill = [0]
    ∧ (((ProcessesMgr.initial 2).run
        [Event.add 10, Event.add 11, Event.play 1, Event.play 0,
         Event.kill 0]).threadFinished 0)
      = { m_processes := [(0, 10), (1, 11)], m_runningProcesses := [0],
          m_queuedProcesses := [], m_processesToKill := [0, 0], m_threads := 2,
          trace := [Effect.setProcessId 10 0, Effect.newProcess 0,
                    Effect.setProcessId 11 1, Effect.newProcess 1,
                    Effect.taskSubmitted 1, Effect.taskSubmitted 0] } := by
  decide

/-- C7: `kill` of a queued process leaves it in the queue and drops another.
One worker thread; 1 is played and runs, 0 is played and queues, the pool is
shrunk to 0 threads: nothing runs and the queue is [1, 0]. `kill(0)` destroys
simulation 0 and emits killed(0), and then `m_queuedProcesses.removeAt(0)`
removes the entry at index 0, which is id 1: the destroyed id 0 is still
queued and the live id 1 is not. -/
theorem kill_queued_wrong_entry :
    (∀ e ∈ [Event.add 10, Event.add 11, Event.play 1, Event.play 0,
            Event.setNumThreads 0], e.wellFormed = true)
    ∧ ((ProcessesMgr.initial 1).run
        [Event.add 10, Event.add 11, Event.play 1, Event.play 0,
         Event.setNumThreads 0])
      = { m_processes := [(0, 10), (1, 11)], m_runningProcesses := [],
          m_queuedProcesses := [1, 0], m_processesToKill := [], m_threads := 0,
          trace := [Effect.setProcessId 10 0, Effect.newProcess 0,
                    Effect.setProcessId 11 1, Effect.newProcess 1,
                    Effect.taskSubmitted 1] }
    ∧ (((ProcessesMgr.initial 1).run
        [Event.add 10, Event.add 11, Event.play 1, Event.play 0,
         Event.setNumThreads 0]).kill 0)
      = { m_processes := [(1, 11)], m_runningProcesses := [],
          m_queuedProcesses := [0], m_processesToKill := [], m_threads := 0,
          trace := [Effect.setProcessId 10 0, Effect.newProcess 0,
                    Effect.setProcessId 11 1, Effect.newProcess 1,
                    Effect.taskSubmitted 1, Effect.simDeleted 10,
                    Effect.killed 0] } := by
  decide

/-! ## `setNumThreads` -/

/-- C8, as stated, fails. Three worker threads, 0, 1 and 2 running, 3 queued;
`setNumThreads(1)` takes the two ids at the HEAD of the running list (0, then
1), not the two at its tail, and pushes each on the front of the queue, so
that they stand there in reverse order: running is [2] and queued is
[1, 0, 3], where the claim has running [0] and queued [1, 2, 3]. (No
`sim->pause()` is recorded either: `pause(id)` is called after `takeFirst()`
and returns at its guard, the id being no longer in the running list.) -/
theorem setNumThreads_shrink_takes_head :
    (∀ e ∈ [Event.add 10, Event.add 11, Event.add 12, Event.add 13, Event.play 0,
            Event.play 1, Event.play 2, Event.play 3], e.wellFormed = true)
    ∧ ((ProcessesMgr.initial 3).run
        [Event.add 10, Event.add 11, Event.add 12, Event.add 13, Event.play 0,
         Event.play 1, Event.play 2, Event.play 3]).m_runningProcesses = [0, 1, 2]
    ∧ ((ProcessesMgr.initial 3).run
        [Event.add 10, Event.add 11, Event.add 12, Event.add 13, Event.play 0,
         Event.play 1, Event.play 2, Event.play 3]).m_queuedProcesses = [3]
    ∧ (((ProcessesMgr.initial 3).run
        [Event.add 10, Event.add 11, Event.add 12, Event.add 13, Event.play 0,
         Event.play 1, Event.play 2, Event.play 3]).setNumThreads 1).m_runningProcesses
        = [2]
    ∧ (((ProcessesMgr.initial 3).run
        [Event.add 10, Event.add 11, Event.add 12, Event.add 13, Event.play 0,
         Event.play 1, Event.play 2, Event.play 3]).setNumThreads 1).m_queuedProcesses
        = [1, 0, 3]
    ∧ (((ProcessesMgr.initial 3).run
        [Event.add 10, Event.add 11, Event.add 12, Event.add 13, Event.play 0,
         Event.play 1, Event.play 2, Event.play 3]).setNumThreads 1).trace
        = ((ProcessesMgr.initial 3).run
        [Event.add 10, Event.add 11, Event.add 12, Event.add 13, Event.play 0,
         Event.play 1, Event.play 2, Event.play 3]).trace
    ∧ ¬ ((((ProcessesMgr.initial 3).run
            [Event.add 10, Event.add 11, Event.add 12, Event.add 13, Event.play 0,
             Event.play 1, Event.play 2, Event.play 3]).setNumThreads 1).m_runningProcesses
          = List.take (3 - min 2 3) [0, 1, 2]
        ∧ (((ProcessesMgr.initial 3).run
            [Event.add 10, Event.add 11, Event.add 12, Event.add 13, Event.play 0,
             Event.play 1, Event.play 2, Event.play 3]).setNumThreads 1).m_queuedProcesses
          = List.drop (3 - min 2 3) [0, 1, 2] ++ [3]) := by
  decide

/-- C8, amended: for a new thread count below the old one, `setNumThreads(new)`
removes from the running list its HEAD-most k = min(old - new, |running|) ids,
leaves the other running ids untouched and in order, and places the removed
ids at the front of the queue, ahead of the previously queued ids, in the
REVERSE of the order they had in the running list; the thread count becomes
new, and processes and toKill are unchanged. -/
theorem setNumThreads_shrink (s : ProcessesMgr) (new : Int)
    (h : new < s.m_threads) :
    (s.setNumThreads new).m_threads = new
    ∧ (s.setNumThreads new).m_runningProcesses
        = s.m_runningProcesses.drop
            (min (s.m_threads - new).toNat s.m_runningProcesses.length)
    ∧ (s.setNumThreads new).m_queuedProcesses
        = (s.m_runningProcesses.take
            (min (s.m_threads - new).toNat s.m_runningProcesses.length)).reverse
          ++ s.m_queuedProcesses
    ∧ (s.setNumThreads new).m_processes = s.m_processes
    ∧ (s.setNumThreads new).m_processesToKill = s.m_processesToKill := by
  have hp : (new - s.m_threads).natAbs = (s.m_threads - new).toNat := by omega
  have hne : ¬ s.m_threads = new := by omega
  have hgt : ¬ new > s.m_threads := by omega
  obtain ⟨g1, g2, g3, g4, g5⟩ :=
    ProcessesMgr.evictLoop_fields (s.m_threads - new).toNat { s with m_threads := new }
  have hdrop : s.m_runningProcesses.drop
        (min (s.m_threads - new).toNat s.m_runningProcesses.length)
      = s.m_runningProcesses.drop (s.m_threads - new).toNat := by
    rcases Nat.le_total (s.m_threads - new).toNat s.m_runningProcesses.length with hle | hle
    · rw [Nat.min_eq_left hle]
    · rw [Nat.min_eq_right hle, List.drop_length, List.drop_eq_nil_of_le hle]
  have htake : s.m_runningProcesses.take
        (min (s.m_threads - new).toNat s.m_runningProcesses.length)
      = s.m_runningProcesses.take (s.m_threads - new).toNat := by
    rcases Nat.le_total (s.m_threads - new).toNat s.m_runningProcesses.length with hle | hle
    · rw [Nat.min_eq_left hle]
    · rw [Nat.min_eq_right hle, List.take_length, List.take_of_length_le hle]
  unfold ProcessesMgr.setNumThreads
  simp only [hne, hgt, h, if_false, if_true, hp]
  rw [hdrop, htake]
  exact ⟨g5, g1, g2, g3, g4⟩

/-- C8, amended, at a concrete state: threads 3, running [0, 1, 2], queued
[3], new thread count 1. -/
theorem setNumThreads_shrink_witness :
    (1 : Int) < (ProcessesMgr.mk [(0, 10), (1, 11), (2, 12), (3, 13)] [0, 1, 2] [3] [] 3
                  []).m_threads
    ∧ ((ProcessesMgr.mk [(0, 10), (1, 11), (2, 12), (3, 13)] [0, 1, 2] [3] [] 3
          []).setNumThreads 1).m_runningProcesses = [2]
    ∧ ((ProcessesMgr.mk [(0, 10), (1, 11), (2, 12), (3, 13)] [0, 1, 2] [3] [] 3
          []).setNumThreads 1).m_queuedProcesses = [1, 0, 3] :=
  ⟨by decide,
   (setNumThreads_shrink (ProcessesMgr.mk [(0, 10), (1, 11), (2, 12), (3, 13)] [0, 1, 2]
      [3] [] 3 []) 1 (by decide)).2.1,
   (setNumThreads_shrink (ProcessesMgr.mk [(0, 10), (1, 11), (2, 12), (3, 13)] [0, 1, 2]
      [3] [] 3 []) 1 (by decide)).2.2.1⟩

/-- C9: growing the pool loses a queued id. One worker thread; 2 is played
and runs, 0 and 1 are played and queue: running [2], queued [0, 1], all ids
known. `setNumThreads(2)` takes 0 from the queue and admits it through
`play`, whose `m_queuedProcesses.removeAt(0)` then removes the entry at index
0 of what is left, which is id 1: the queue ends empty, where the remaining
suffix of the old queue is [1]. -/
theorem setNumThreads_grow_loses_queued :
    (∀ e ∈ [Event.add 10, Event.add 11, Event.add 12, Event.play 2, Event.play 0,
            Event.play 1], e.wellFormed = true)
    ∧ ((ProcessesMgr.initial 1).run
        [Event.add 10, Event.add 11, Event.add 12, Event.play 2, Event.play 0,
         Event.play 1])
      = { m_processes := [(0, 10), (1, 11), (2, 12)], m_runningProcesses := [2],
          m_queuedProcesses := [0, 1], m_processesToKill := [], m_threads := 1,
          trace := [Effect.setProcessId 10 0, Effect.newProcess 0,
                    Effect.setProcessId 11 1, Effect.newProcess 1,
                    Effect.setProcessId 12 2, Effect.newProcess 2,
                    Effect.taskSubmitted 2] }
    ∧ (((ProcessesMgr.initial 1).run
        [Event.add 10, Event.add 11, Event.add 12, Event.play 2, Event.play 0,
         Event.play 1]).setNumThreads 2).m_runningProcesses = [2, 0]
    ∧ (((ProcessesMgr.initial 1).run
        [Event.add 10, Event.add 11, Event.add 12, Event.play 2, Event.play 0,
         Event.play 1]).setNumThreads 2).m_queuedProcesses = [] := by
  decide

/-! ## `Experiment::init` on inputs it rejects -/

theorem Experiment.errGraphType_ne_empty : Experiment.errGraphType ≠ "" := by
  decide

theorem Experiment.errTrials_ne_empty (ctx : Context) : Experiment.errTrials ctx ≠ "" := by
  intro h
  have hlen := congrArg String.length h
  simp only [Experiment.errTrials, String.length_append] at hlen
  have hpos : 0 < "!".length := by decide
  have hzero : "".length = 0 := rfl
  omega

/-- C10, as stated, fails, in two ways. (1) On the idle experiment
`demoExperiment`, whose status is `READY`, inputs with an unrecognized graph
type make `init` return false with an error text, and the status is still
`READY`, not `INVALID`: `init` never assigns the status. (2) Inputs whose
model id and graph id do not resolve, and that are otherwise valid, are
accepted: `init` returns true and leaves the status `READY`; the plugin
handles it stores are null. -/
theorem init_failure_status_not_invalid :
    demoExperiment.idle
    ∧ demoContext.enumFromString "hypergraph" = GraphType.Invalid_Type
    ∧ (Experiment.init demoContext demoExperiment
          { demoInputs with graphType := "hypergraph" } "").map
        (fun r => (r.1, r.2.1, r.2.2.m_expStatus))
      = some (false, "the graph type is invalid!", Status.READY)
    ∧ demoContext.model "unknownModel" = none
    ∧ demoContext.graph "unknownGraph" = none
    ∧ (Experiment.init demoContext demoExperiment
          { demoInputs with modelId := "unknownModel", graphId := "unknownGraph" } "").map
        (fun r => (r.1, r.2.1, r.2.2.m_expStatus, r.2.2.m_modelPlugin, r.2.2.m_graphPlugin))
      = some (true, "", Status.READY, none, none) := by
  refine ⟨by decide, by decide, by decide, by decide, by decide, by decide⟩

/-- C10, amended: for every idle experiment and every inputs in which the
graph type is unrecognized or the number of trials is outside
1..MAX_TRIALS, `init` returns false, sets a non-empty error message, and
leaves the status of the experiment as it was before the call (so `INVALID`
when it was `INVALID`, as in the constructor). -/
theorem init_rejects_keeps_status (ctx : Context) (e : Experiment) (inputs : ExpInputs)
    (error : String) (hidle : e.idle)
    (hbad : ctx.enumFromString inputs.graphType = GraphType.Invalid_Type
            ∨ inputs.trials < 1 ∨ ctx.EVOPLEX_MAX_TRIALS < inputs.trials) :
    ∃ msg e', Experiment.init ctx e inputs error = some (false, msg, e')
      ∧ msg ≠ "" ∧ e'.m_expStatus = e.m_expStatus := by
  have hrun : ¬ (e.m_expStatus = Status.RUNNING ∨ e.m_expStatus = Status.QUEUED) := by
    rintro (h | h)
    · exact hidle.1 h
    · exact hidle.2 h
  unfold Experiment.init
  simp only [hrun, if_false]
  by_cases hg : ctx.enumFromString inputs.graphType = GraphType.Invalid_Type
  · simp only [hg, if_true]
    exact ⟨_, _, rfl, Experiment.errGraphType_ne_empty, rfl⟩
  · have ht : inputs.trials < 1 ∨ inputs.trials > ctx.EVOPLEX_MAX_TRIALS := by
      rcases hbad with h | h | h
      · exact absurd h hg
      · exact Or.inl h
      · exact Or.inr h
    simp only [hg, if_false, ht, if_true]
    exact ⟨_, _, rfl, Experiment.errTrials_ne_empty ctx, rfl⟩

/-- C10, amended, at concrete inputs: the constructor case (status `INVALID`
before the call) with zero trials. -/
theorem init_rejects_keeps_status_witness :
    ({ demoExperiment with m_expStatus := Status.INVALID } : Experiment).idle
    ∧ (demoContext.enumFromString ({ demoInputs with trials := 0 } : ExpInputs).graphType
          = GraphType.Invalid_Type
        ∨ ({ demoInputs with trials := 0 } : ExpInputs).trials < 1
        ∨ demoContext.EVOPLEX_MAX_TRIALS < ({ demoInputs with trials := 0 } : ExpInputs).trials)
    ∧ ∃ msg e', Experiment.init demoContext
          { demoExperiment with m_expStatus := Status.INVALID }
          { demoInputs with trials := 0 } "" = some (false, msg, e')
        ∧ msg ≠ ""
        ∧ e'.m_expStatus
            = ({ demoExperiment with m_expStatus := Status.INVALID } : Experiment).m_expStatus :=
  ⟨by decide, by decide,
   init_rejects_keeps_status demoContext { demoExperiment with m_expStatus := Status.INVALID }
     { demoInputs with trials := 0 } "" (by decide) (by decide)⟩

/-! ## What a failed `init` leaves behind -/

/-- C11, as stated, fails. The idle experiment `demoExperiment`, given one
output (handle 7), is handed inputs with an unrecognized graph type: `init`
returns false, and by then it has emptied the output set and replaced the
inputs of the experiment by the rejected ones (`m_outputs.clear()`,
`delete m_inputs`, `m_inputs = inputs` come before the checks). -/
theorem init_failure_replaces_inputs :
    ({ demoExperiment with m_outputs := [7] } : Experiment).idle
    ∧ (Experiment.init demoContext { demoExperiment with m_outputs := [7] }
          { demoInputs with graphType := "hypergraph" } "").map
        (fun r => (r.1, r.2.2.m_inputs, r.2.2.m_outputs))
      = some (false, some { demoInputs with graphType := "hypergraph" }, [])
    ∧ ({ demoExperiment with m_outputs := [7] } : Experiment).m_inputs = some demoInputs
    ∧ ({ demoExperiment with m_outputs := [7] } : Experiment).m_outputs = [7]
    ∧ some ({ demoInputs with graphType := "hypergraph" } : ExpInputs) ≠ some demoInputs := by
  refine ⟨by decide, by decide, by decide, by decide, by decide⟩

/-- C11, amended: for every idle experiment and every inputs, whenever `init`
returns false the trials, the file header, the file path prefix and the status
of the experiment are the same as before the call, while its inputs are the
inputs just handed in and its output set is empty. -/
theorem init_failure_frame (ctx : Context) (e e' : Experiment) (inputs : ExpInputs)
    (error msg : String) (hidle : e.idle)
    (h : Experiment.init ctx e inputs error = some (false, msg, e')) :
    e'.m_trials = e.m_trials
    ∧ e'.m_fileHeader = e.m_fileHeader
    ∧ e'.m_filePathPrefix = e.m_filePathPrefix
    ∧ e'.m_expStatus = e.m_expStatus
    ∧ e'.m_inputs = some inputs
    ∧ e'.m_outputs = [] := by
  have hrun : ¬ (e.m_expStatus = Status.RUNNING ∨ e.m_expStatus = Status.QUEUED) := by
    rintro (h1 | h1)
    · exact hidle.1 h1
    · exact hidle.2 h1
  unfold Experiment.init at h
  simp only [hrun, if_false] at h
  split at h
  · simp only [Option.some.injEq, Prod.mk.injEq, true_and] at h
    obtain ⟨-, rfl⟩ := h
    exact ⟨rfl, rfl, rfl, rfl, rfl, rfl⟩
  · split at h
    · simp only [Option.some.injEq, Prod.mk.injEq, true_and] at h
      obtain ⟨-, rfl⟩ := h
      exact ⟨rfl, rfl, rfl, rfl, rfl, rfl⟩
    · split at h
      · exact absurd h (by simp)
      · simp at h

/-- C11, amended, at concrete inputs: `demoExperiment` with one output and
inputs with an unrecognized graph type. -/
theorem init_failure_frame_witness :
    demoExperimentOneOutput.idle
    ∧ Experiment.init demoContext demoExperimentOneOutput demoBadInputs ""
      = some (false, Experiment.errGraphType, demoExperimentRejected)
    ∧ demoExperimentRejected.m_trials = demoExperimentOneOutput.m_trials
    ∧ demoExperimentRejected.m_fileHeader = demoExperimentOneOutput.m_fileHeader
    ∧ demoExperimentRejected.m_filePathPrefix = demoExperimentOneOutput.m_filePathPrefix
    ∧ demoExperimentRejected.m_expStatus = demoExperimentOneOutput.m_expStatus
    ∧ demoExperimentRejected.m_inputs = some demoBadInputs
    ∧ demoExperimentRejected.m_outputs = [] :=
  ⟨by decide, by decide,
   init_failure_frame demoContext demoExperimentOneOutput demoExperimentRejected
     demoBadInputs "" Experiment.errGraphType (by decide) (by decide)⟩

/-! ## `init` and `reset` on a running or queued experiment -/

theorem Experiment.errRunning_ne_empty : Experiment.errRunning ≠ "" := by
  decide

/-- C12: on an experiment whose status is Running or Queued, `init` returns
false with a non-empty error message and `reset` returns; after either call
every field of the experiment (status, inputs, outputs, trials, progress,
stopAt, pauseAt and all others) is as before, the only trace of the call
being one `qWarning()`. -/
theorem init_reset_rejected_while_running (ctx : Context) (e : Experiment)
    (inputs : ExpInputs) (error : String)
    (h : e.m_expStatus = Status.RUNNING ∨ e.m_expStatus = Status.QUEUED) :
    Experiment.init ctx e inputs error
      = some (false, Experiment.errRunning,
          { e with trace := e.trace ++ [ExpEffect.warning Experiment.errRunning] })
    ∧ Experiment.errRunning ≠ ""
    ∧ Experiment.reset ctx e
      = some { e with trace := e.trace ++ [ExpEffect.warning Experiment.resetWarning] } := by
  refine ⟨?_, Experiment.errRunning_ne_empty, ?_⟩
  · unfold Experiment.init
    simp only [h, if_true]
  · unfold Experiment.reset
    simp only [h, if_true]

/-- C12, at a concrete experiment: `demoExperiment` while running. -/
theorem init_reset_rejected_while_running_witness :
    (({ demoExperiment with m_expStatus := Status.RUNNING } : Experiment).m_expStatus
        = Status.RUNNING
      ∨ ({ demoExperiment with m_expStatus := Status.RUNNING } : Experiment).m_expStatus
        = Status.QUEUED)
    ∧ Experiment.reset demoContext { demoExperiment with m_expStatus := Status.RUNNING }
      = some { demoExperiment with
          m_expStatus := Status.RUNNING,
          trace := [ExpEffect.warning Experiment.resetWarning] } :=
  ⟨by decide,
   (init_reset_rejected_while_running demoContext
      { demoExperiment with m_expStatus := Status.RUNNING } demoInputs "" (by decide)).2.2⟩

/-! ## Progress and status -/

/-- C13, as stated, fails in both directions, on states reached through
`init`, `setExpStatus` and `updateProgressValue` alone. After the
constructor's `init` with `demoInputs`, `setExpStatus(FINISHED)` gives status
`FINISHED` with progress 0: `setExpStatus` does not touch the progress. After
a following `updateProgressValue` (progress 360) and `setExpStatus(READY)`,
the progress is 360 and the status is `READY`. -/
theorem progress_360_not_iff_finished :
    (Experiment.init demoContext (Experiment.constructed 0 "Project0") demoInputs "").map
        (fun r => ((r.2.2.setExpStatus Status.FINISHED).m_expStatus,
                   (r.2.2.setExpStatus Status.FINISHED).m_progress))
      = some (Status.FINISHED, 0)
    ∧ ((Experiment.init demoContext (Experiment.constructed 0 "Project0") demoInputs "").bind
        (fun r => (r.2.2.setExpStatus Status.FINISHED).updateProgressValue)).map
        (fun e => ((e.setExpStatus Status.READY).m_expStatus,
                   (e.setExpStatus Status.READY).m_progress))
      = some (Status.READY, 360) := by
  refine ⟨by decide, by decide⟩

/-- C13, amended: `updateProgressValue` on an experiment whose status is
Finished returns, leaves the status Finished and sets the progress to 360. The
equivalence holds in this one direction and right after
`updateProgressValue` only. -/
theorem updateProgressValue_finished (e : Experiment)
    (h : e.m_expStatus = Status.FINISHED) :
    ∃ e', e.updateProgressValue = some e'
      ∧ e'.m_expStatus = Status.FINISHED ∧ e'.m_progress = 360 := by
  unfold Experiment.updateProgressValue
  simp only [h, if_true, Option.map_some']
  split
  · exact ⟨_, rfl, rfl, rfl⟩
  · exact ⟨_, rfl, rfl, rfl⟩

/-- C13, amended, at a concrete experiment: `demoExperiment` set to Finished. -/
theorem updateProgressValue_finished_witness :
    (demoExperiment.setExpStatus Status.FINISHED).m_expStatus = Status.FINISHED
    ∧ ∃ e', (demoExperiment.setExpStatus Status.FINISHED).updateProgressValue = some e'
        ∧ e'.m_expStatus = Status.FINISHED ∧ e'.m_progress = 360 :=
  ⟨by decide,
   updateProgressValue_finished (demoExperiment.setExpStatus Status.FINISHED) (by decide)⟩

/-! ## The progress of a running experiment -/

/-- The running branch of `updateProgressValue`, when the value is defined:
the stored progress is the ceiling itself. -/
theorem Experiment.updateProgressValue_running (e : Experiment)
    (hrun : e.m_expStatus = Status.RUNNING)
    (hdiv : ¬ ((e.m_pauseAt = 0 ∧ e.m_trials ≠ []) ∨ e.m_numTrials = 0))
    (hlo : 0 ≤ e.progressCeil) (hhi : e.progressCeil ≤ 65535) :
    ∃ e', e.updateProgressValue = some e'
      ∧ (e'.m_progress : Int) = e.progressCeil := by
  have hrange : ¬ (e.progressCeil < 0 ∨ e.progressCeil > 65535) := by omega
  have hcast : ((e.progressCeil.toNat : Nat) : Int) = e.progressCeil :=
    Int.toNat_of_nonneg hlo
  unfold Experiment.updateProgressValue
  simp only [hrun, hdiv, hrange, if_false, if_true, Option.map_some', reduceCtorEq]
  split
  · exact ⟨_, rfl, hcast⟩
  · exact ⟨_, rfl, hcast⟩

/-- The sum of the quotients step / pauseAt lies between 0 and the number of
trials when no step counter exceeds a positive `pauseAt`. -/
theorem Experiment.progressSum_bounds (e : Experiment) (hp : 1 ≤ e.m_pauseAt)
    (hsteps : ∀ t ∈ e.m_trials, (t.2.step : Int) ≤ e.m_pauseAt) :
    0 ≤ e.progressSum ∧ e.progressSum ≤ (e.m_trials.length : ℚ) := by
  unfold Experiment.progressSum
  have hpq : (0 : ℚ) < (e.m_pauseAt : ℚ) := by exact_mod_cast (by omega : 0 < e.m_pauseAt)
  generalize e.m_trials = l at hsteps
  induction l with
  | nil => simp
  | cons t rest ih =>
    have hrest := ih (fun x hx => hsteps x (List.mem_cons_of_mem t hx))
    have ht : (t.2.step : Int) ≤ e.m_pauseAt := hsteps t (List.mem_cons_self t rest)
    have htq : ((t.2.step : ℚ)) ≤ (e.m_pauseAt : ℚ) := by exact_mod_cast ht
    have h0 : (0 : ℚ) ≤ (t.2.step : ℚ) / (e.m_pauseAt : ℚ) :=
      div_nonneg (by exact_mod_cast Nat.zero_le _) (le_of_lt hpq)
    have h1 : (t.2.step : ℚ) / (e.m_pauseAt : ℚ) ≤ 1 := (div_le_one hpq).mpr htq
    simp only [List.map_cons, List.sum_cons, List.length_cons, Nat.cast_add, Nat.cast_one]
    constructor
    · linarith [hrest.1]
    · linarith [hrest.2]

/-- With a positive `pauseAt`, no step counter above it and no more trials
than `m_numTrials`, the ceiling lies within 0 .. 360. -/
theorem Experiment.progressCeil_bounds (e : Experiment) (hn : 1 ≤ e.m_numTrials)
    (hp : 1 ≤ e.m_pauseAt) (hlen : (e.m_trials.length : Int) ≤ e.m_numTrials)
    (hsteps : ∀ t ∈ e.m_trials, (t.2.step : Int) ≤ e.m_pauseAt) :
    0 ≤ e.progressCeil ∧ e.progressCeil ≤ 360 := by
  obtain ⟨hs0, hs1⟩ := e.progressSum_bounds hp hsteps
  have hnq : (0 : ℚ) < (e.m_numTrials : ℚ) := by exact_mod_cast (by omega : 0 < e.m_numTrials)
  have hlenq : (e.m_trials.length : ℚ) ≤ (e.m_numTrials : ℚ) := by exact_mod_cast hlen
  unfold Experiment.progressCeil
  constructor
  · apply Int.ceil_nonneg
    apply div_nonneg _ (le_of_lt hnq)
    exact mul_nonneg hs0 (by norm_num)
  · rw [Int.ceil_le]
    rw [div_le_iff₀ hnq]
    push_cast
    nlinarith [hs1, hlenq]

/-- C14, as stated, fails: the code has no clamp. On the running experiment
`demoRunning` (one trial at step 20, `m_pauseAt` 10, `m_numTrials` 1)
`updateProgressValue` stores ceil((20 / 10) * 360 / 1) = 720, above 360. -/
theorem progress_not_clamped :
    demoRunning.m_expStatus = Status.RUNNING
    ∧ demoRunning.m_numTrials = 1
    ∧ demoRunning.progressCeil = 720
    ∧ (∃ e', demoRunning.updateProgressValue = some e' ∧ e'.m_progress = 720)
    ∧ ¬ (∃ e', demoRunning.updateProgressValue = some e' ∧ e'.m_progress ≤ 360) := by
  have hceil : demoRunning.progressCeil = 720 := by
    simp [Experiment.progressCeil, Experiment.progressSum, demoRunning, demoExperiment]
    norm_num
  obtain ⟨e', he', hprog⟩ := demoRunning.updateProgressValue_running (by decide) (by decide)
    (by rw [hceil]; decide) (by rw [hceil]; decide)
  have h720 : e'.m_progress = 720 := by
    rw [hceil] at hprog
    exact_mod_cast hprog
  refine ⟨by decide, by decide, hceil, ⟨e', he', h720⟩, ?_⟩
  rintro ⟨e'', he'', hle⟩
  rw [he'] at he''
  cases he''
  omega

/-- C14, amended: for every experiment in status Running with
`m_numTrials` >= 1 and `m_pauseAt` different from 0, (1) whenever
ceil((sum over trials of step_i / pauseAt) * 360 / numTrials), the arithmetic
taken exactly, lies within 0 .. 65535, `updateProgressValue` returns and
stores that value as it is, without clamping it; (2) when moreover
`m_pauseAt` >= 1, no trial's step counter exceeds `m_pauseAt` and the trial
map holds at most `m_numTrials` trials, `updateProgressValue` returns and the
stored progress is that value and is at most 360 (and, a natural number, not
below 0). -/
theorem updateProgressValue_running_value (e : Experiment)
    (hrun : e.m_expStatus = Status.RUNNING) (hn : 1 ≤ e.m_numTrials)
    (hp : e.m_pauseAt ≠ 0) :
    (0 ≤ Int.ceil ((e.m_trials.map
            (fun t => (t.2.step : ℚ) / (e.m_pauseAt : ℚ))).sum * 360 / (e.m_numTrials : ℚ))
      → Int.ceil ((e.m_trials.map
            (fun t => (t.2.step : ℚ) / (e.m_pauseAt : ℚ))).sum * 360 / (e.m_numTrials : ℚ))
          ≤ 65535
      → ∃ e', e.updateProgressValue = some e'
          ∧ (e'.m_progress : Int) = Int.ceil ((e.m_trials.map
              (fun t => (t.2.step : ℚ) / (e.m_pauseAt : ℚ))).sum * 360
                / (e.m_numTrials : ℚ)))
    ∧ (1 ≤ e.m_pauseAt
      → (e.m_trials.length : Int) ≤ e.m_numTrials
      → (∀ t ∈ e.m_trials, (t.2.step : Int) ≤ e.m_pauseAt)
      → ∃ e', e.updateProgressValue = some e'
          ∧ (e'.m_progress : Int) = Int.ceil ((e.m_trials.map
              (fun t => (t.2.step : ℚ) / (e.m_pauseAt : ℚ))).sum * 360
                / (e.m_numTrials : ℚ))
          ∧ e'.m_progress ≤ 360) := by
  have hdiv : ¬ ((e.m_pauseAt = 0 ∧ e.m_trials ≠ []) ∨ e.m_numTrials = 0) := by
    rintro (⟨h0, -⟩ | h0)
    · exact hp h0
    · omega
  constructor
  · intro hlo hhi
    exact e.updateProgressValue_running hrun hdiv hlo hhi
  · intro hp1 hlen hsteps
    obtain ⟨hlo, hhi⟩ := e.progressCeil_bounds hn hp1 hlen hsteps
    obtain ⟨e', he', hprog⟩ := e.updateProgressValue_running hrun hdiv hlo (by omega)
    refine ⟨e', he', hprog, ?_⟩
    have : (e'.m_progress : Int) ≤ 360 := by rw [hprog]; exact hhi
    exact_mod_cast this

/-- C14, amended, at a concrete experiment: two trials at steps 5 and 10,
`m_pauseAt` 10. -/
theorem updateProgressValue_running_value_witness :
    demoRunningHalf.m_expStatus = Status.RUNNING
    ∧ 1 ≤ demoRunningHalf.m_numTrials
    ∧ demoRunningHalf.m_pauseAt ≠ 0
    ∧ ∃ e', demoRunningHalf.updateProgressValue = some e'
        ∧ (e'.m_progress : Int) = Int.ceil ((demoRunningHalf.m_trials.map
            (fun t => (t.2.step : ℚ) / (demoRunningHalf.m_pauseAt : ℚ))).sum * 360
              / (demoRunningHalf.m_numTrials : ℚ))
        ∧ e'.m_progress ≤ 360 :=
  ⟨by decide, by decide, by decide,
   (updateProgressValue_running_value demoRunningHalf (by decide) (by decide)
      (by decide)).2 (by decide) (by decide) (by decide)⟩

/-! ## `reset` on an idle experiment -/

/-- On an idle experiment with inputs and a trial count within 0 .. 65535,
`reset` returns, and this is the state it leaves. -/
theorem Experiment.reset_idle_eq (ctx : Context) (e : Experiment) (inputs : ExpInputs)
    (hidle : e.idle) (h0 : 0 ≤ e.m_numTrials) (h1 : e.m_numTrials ≤ 65535)
    (hin : e.m_inputs = some inputs) :
    Experiment.reset ctx e
      = some { e with
          m_trials := (List.range e.m_numTrials.toNat).map
            (fun trialId => (trialId, { id := trialId, step := 0, status := Status.UNSET })),
          m_clonableNodes := [],
          m_delay := ctx.defaultStepDelay,
          m_stopAt := inputs.stopAt,
          m_pauseAt := inputs.stopAt,
          m_progress := 0,
          m_expStatus := Status.READY,
          trace := (e.trace ++ e.m_outputs.map ExpEffect.flushAll)
            ++ [ExpEffect.statusChanged Status.READY, ExpEffect.restarted] } := by
  have hrun : ¬ (e.m_expStatus = Status.RUNNING ∨ e.m_expStatus = Status.QUEUED) := by
    rintro (h | h)
    · exact hidle.1 h
    · exact hidle.2 h
  have hrange : ¬ (e.m_numTrials < 0 ∨ e.m_numTrials > 65535) := by omega
  unfold Experiment.reset Experiment.deleteTrials
  simp only [hrun, hrange, if_false, hin]

/-- C15: for every idle experiment with inputs and 1 <= numTrials <=
MAX_TRIALS (MAX_TRIALS itself within the range of the `quint16` trial
counter), `reset` returns, and afterwards the trial map holds exactly
numTrials trials, with the keys 0 .. numTrials-1 in this order and no others,
each trial carrying its key as id, step 0 and status Unset; the status is
Ready, the progress is 0, pauseAt and stopAt both equal the stop-at value of
the inputs, and the clonable node set is empty. -/
theorem reset_creates_trials (ctx : Context) (e : Experiment) (inputs : ExpInputs)
    (hidle : e.idle) (h1 : 1 ≤ e.m_numTrials)
    (hmax : e.m_numTrials ≤ ctx.EVOPLEX_MAX_TRIALS)
    (hquint : ctx.EVOPLEX_MAX_TRIALS ≤ 65535) (hin : e.m_inputs = some inputs) :
    ∃ e', Experiment.reset ctx e = some e'
      ∧ e'.m_trials.map Prod.fst = List.range e.m_numTrials.toNat
      ∧ (e'.m_trials.length : Int) = e.m_numTrials
      ∧ (∀ t ∈ e'.m_trials,
          t.2.id = t.1 ∧ t.2.step = 0 ∧ t.2.status = Status.UNSET)
      ∧ e'.m_expStatus = Status.READY
      ∧ e'.m_progress = 0
      ∧ e'.m_pauseAt = inputs.stopAt
      ∧ e'.m_stopAt = inputs.stopAt
      ∧ e'.m_clonableNodes = [] := by
  refine ⟨_, Experiment.reset_idle_eq ctx e inputs hidle (by omega) (by omega) hin,
    ?_, ?_, ?_, rfl, rfl, rfl, rfl, rfl⟩
  · simp [List.map_map, Function.comp_def]
  · simp only [List.length_map, List.length_range]
    omega
  · intro t ht
    simp only [List.mem_map, List.mem_range] at ht
    obtain ⟨k, -, rfl⟩ := ht
    exact ⟨rfl, rfl, rfl⟩

/-- C15, at a concrete experiment: `demoExperiment` (two trials, stop-at 10). -/
theorem reset_creates_trials_witness :
    demoExperiment.idle
    ∧ 1 ≤ demoExperiment.m_numTrials
    ∧ demoExperiment.m_numTrials ≤ demoContext.EVOPLEX_MAX_TRIALS
    ∧ demoContext.EVOPLEX_MAX_TRIALS ≤ 65535
    ∧ demoExperiment.m_inputs = some demoInputs
    ∧ ∃ e', Experiment.reset demoContext demoExperiment = some e'
        ∧ e'.m_trials.map Prod.fst = List.range demoExperiment.m_numTrials.toNat
        ∧ (e'.m_trials.length : Int) = demoExperiment.m_numTrials
        ∧ (∀ t ∈ e'.m_trials,
            t.2.id = t.1 ∧ t.2.step = 0 ∧ t.2.status = Status.UNSET)
        ∧ e'.m_expStatus = Status.READY
        ∧ e'.m_progress = 0
        ∧ e'.m_pauseAt = demoInputs.stopAt
        ∧ e'.m_stopAt = demoInputs.stopAt
        ∧ e'.m_clonableNodes = [] :=
  ⟨by decide, by decide, by decide, by decide, by decide,
   reset_creates_trials demoContext demoExperiment demoInputs (by decide) (by decide)
     (by decide) (by decide) (by decide)⟩

/-! ## `init` and the number of trials -/

/-- After its checks `init` returns true: the call of `reset` that ends it
returns, for a trial count within 1 .. 65535. -/
theorem Experiment.init_accepts (ctx : Context) (e : Experiment) (inputs : ExpInputs)
    (error : String) (hidle : e.idle)
    (hg : ctx.enumFromString inputs.graphType ≠ GraphType.Invalid_Type)
    (h1 : 1 ≤ inputs.trials) (hmax : inputs.trials ≤ ctx.EVOPLEX_MAX_TRIALS)
    (hquint : inputs.trials ≤ 65535) :
    ∃ e', Experiment.init ctx e inputs error = some (true, error, e') := by
  have hrun : ¬ (e.m_expStatus = Status.RUNNING ∨ e.m_expStatus = Status.QUEUED) := by
    rintro (h | h)
    · exact hidle.1 h
    · exact hidle.2 h
  have hrange : ¬ (inputs.trials < 1 ∨ inputs.trials > ctx.EVOPLEX_MAX_TRIALS) := by omega
  unfold Experiment.init
  simp only [hrun, hg, hrange, if_false]
  have key : ∀ e5 : Experiment, e5.idle → e5.m_numTrials = inputs.trials
      → e5.m_inputs = some inputs → Experiment.reset ctx e5 ≠ none := by
    intro e5 hi hn hin
    rw [Experiment.reset_idle_eq ctx e5 inputs hi (by omega) (by omega) hin]
    exact Option.some_ne_none _
  cases hc : inputs.fileCaches.isEmpty
  · simp only [Bool.false_eq_true, if_false]
    split
    · rename_i hnone
      exact absurd hnone (key _ hidle rfl rfl)
    · exact ⟨_, rfl⟩
  · simp only [if_true]
    split
    · rename_i hnone
      exact absurd hnone (key _ hidle rfl rfl)
    · exact ⟨_, rfl⟩

/-- With a recognized graph type and a trial count out of range, `init`
returns false with the error text about the number of trials. -/
theorem Experiment.init_rejects_trials (ctx : Context) (e : Experiment)
    (inputs : ExpInputs) (error : String) (hidle : e.idle)
    (hg : ctx.enumFromString inputs.graphType ≠ GraphType.Invalid_Type)
    (hout : ¬ (1 ≤ inputs.trials ∧ inputs.trials ≤ ctx.EVOPLEX_MAX_TRIALS)) :
    ∃ e', Experiment.init ctx e inputs error = some (false, Experiment.errTrials ctx, e') := by
  have hrun : ¬ (e.m_expStatus = Status.RUNNING ∨ e.m_expStatus = Status.QUEUED) := by
    rintro (h | h)
    · exact hidle.1 h
    · exact hidle.2 h
  have hrange : inputs.trials < 1 ∨ inputs.trials > ctx.EVOPLEX_MAX_TRIALS := by omega
  unfold Experiment.init
  simp only [hrun, hg, hrange, if_false, if_true]
  exact ⟨_, rfl⟩

/-- C16: for every idle experiment and every inputs with a recognized graph
type (MAX_TRIALS within the range of the `quint16` trial counter), `init`
returns true if and only if 1 <= numTrials <= MAX_TRIALS, and otherwise it
returns false with the non-empty error text about the number of trials; so
numTrials == 1 and numTrials == MAX_TRIALS are admitted (when MAX_TRIALS is at
least 1) and numTrials == 0 is rejected. -/
theorem init_true_iff_trials_in_range (ctx : Context) (e : Experiment)
    (inputs : ExpInputs) (error : String) (hidle : e.idle)
    (hg : ctx.enumFromString inputs.graphType ≠ GraphType.Invalid_Type)
    (hquint : ctx.EVOPLEX_MAX_TRIALS ≤ 65535) :
    ((∃ msg e', Experiment.init ctx e inputs error = some (true, msg, e'))
        ↔ (1 ≤ inputs.trials ∧ inputs.trials ≤ ctx.EVOPLEX_MAX_TRIALS))
    ∧ (¬ (1 ≤ inputs.trials ∧ inputs.trials ≤ ctx.EVOPLEX_MAX_TRIALS)
        → ∃ e', Experiment.init ctx e inputs error
                  = some (false, Experiment.errTrials ctx, e')
            ∧ Experiment.errTrials ctx ≠ "")
    ∧ (inputs.trials = 1 → 1 ≤ ctx.EVOPLEX_MAX_TRIALS
        → ∃ e', Experiment.init ctx e inputs error = some (true, error, e'))
    ∧ (inputs.trials = ctx.EVOPLEX_MAX_TRIALS → 1 ≤ ctx.EVOPLEX_MAX_TRIALS
        → ∃ e', Experiment.init ctx e inputs error = some (true, error, e'))
    ∧ (inputs.trials = 0
        → ∃ e', Experiment.init ctx e inputs error
                  = some (false, Experiment.errTrials ctx, e')
            ∧ Experiment.errTrials ctx ≠ "") := by
  have hrej : ¬ (1 ≤ inputs.trials ∧ inputs.trials ≤ ctx.EVOPLEX_MAX_TRIALS)
      → ∃ e', Experiment.init ctx e inputs error
                = some (false, Experiment.errTrials ctx, e')
          ∧ Experiment.errTrials ctx ≠ "" := by
    intro hout
    obtain ⟨e', he'⟩ := Experiment.init_rejects_trials ctx e inputs error hidle hg hout
    exact ⟨e', he', Experiment.errTrials_ne_empty ctx⟩
  have hacc : 1 ≤ inputs.trials ∧ inputs.trials ≤ ctx.EVOPLEX_MAX_TRIALS
      → ∃ e', Experiment.init ctx e inputs error = some (true, error, e') := by
    intro hin
    exact Experiment.init_accepts ctx e inputs error hidle hg hin.1 hin.2 (by omega)
  refine ⟨⟨?_, ?_⟩, hrej, ?_, ?_, ?_⟩
  · rintro ⟨msg, e', he'⟩
    by_contra hout
    obtain ⟨e'', he'', -⟩ := hrej hout
    rw [he''] at he'
    simp at he'
  · intro hin
    obtain ⟨e', he'⟩ := hacc hin
    exact ⟨error, e', he'⟩
  · intro ht hm
    exact hacc ⟨by omega, by omega⟩
  · intro ht hm
    exact hacc ⟨by omega, by omega⟩
  · intro ht
    exact hrej (by omega)

/-- C16, at concrete inputs: `demoExperiment`, one trial. -/
theorem init_true_iff_trials_in_range_witness :
    demoExperiment.idle
    ∧ demoContext.enumFromString ({ demoInputs with trials := 1 } : ExpInputs).graphType
        ≠ GraphType.Invalid_Type
    ∧ demoContext.EVOPLEX_MAX_TRIALS ≤ 65535
    ∧ ∃ e', Experiment.init demoContext demoExperiment { demoInputs with trials := 1 } ""
        = some (true, "", e') :=
  ⟨by decide, by decide, by decide,
   (init_true_iff_trials_in_range demoContext demoExperiment { demoInputs with trials := 1 } ""
      (by decide) (by decide) (by decide)).2.2.1 rfl (by decide)⟩

/-! ## `removeOutput` -/

/-- C17, as stated, fails: a finished experiment is idle, and `removeOutput`
still refuses. On `demoFinishedOneOutput` (status `FINISHED`, output set
holding handle 7) the call for output 7, reporting empty, returns false and
leaves the set as it is: the guard of the code is `m_expStatus != READY`. -/
theorem removeOutput_refuses_finished :
    demoFinishedOneOutput.idle
    ∧ (7 : OutputPtr) ∈ demoFinishedOneOutput.m_outputs
    ∧ (demoFinishedOneOutput.removeOutput 7 true).1 = false
    ∧ (demoFinishedOneOutput.removeOutput 7 true).2.m_outputs = [7] := by
  refine ⟨by decide, by decide, by decide, by decide⟩

/-- C17, amended: for every experiment (its output set holding each output
once) and every output, `removeOutput` returns true if and only if the
status of the experiment is Ready, the output reports empty, and the output
is a member of the output set; when it returns true the output set is the
old set minus that output, and when it returns false the output set is
unchanged. -/
theorem removeOutput_true_iff (e : Experiment) (output : OutputPtr) (outputIsEmpty : Bool)
    (hnodup : e.m_outputs.Nodup) :
    ((e.removeOutput output outputIsEmpty).1 = true
        ↔ (e.m_expStatus = Status.READY ∧ outputIsEmpty = true ∧ output ∈ e.m_outputs))
    ∧ ((e.removeOutput output outputIsEmpty).1 = true
        → (e.removeOutput output outputIsEmpty).2.m_outputs = e.m_outputs.erase output
          ∧ ∀ o, o ∈ (e.removeOutput output outputIsEmpty).2.m_outputs
                  ↔ (o ∈ e.m_outputs ∧ o ≠ output))
    ∧ ((e.removeOutput output outputIsEmpty).1 = false
        → (e.removeOutput output outputIsEmpty).2.m_outputs = e.m_outputs) := by
  by_cases hs : e.m_expStatus = Status.READY
  · cases hemp : outputIsEmpty
    · simp [Experiment.removeOutput, hs]
    · by_cases hmem : output ∈ e.m_outputs
      · have hval : e.removeOutput output true
            = (true, { e with m_outputs := e.m_outputs.erase output }) := by
          unfold Experiment.removeOutput
          simp [hs, hmem]
        rw [hval]
        refine ⟨by simp [hs, hmem], fun _ => ⟨rfl, fun o => ?_⟩, by simp⟩
        show o ∈ e.m_outputs.erase output ↔ _
        rw [hnodup.mem_erase_iff]
        exact And.comm
      · simp [Experiment.removeOutput, hs, hmem]
  · simp [Experiment.removeOutput, hs]

/-- C17, amended, at a concrete experiment: `demoExperimentOneOutput`
(status `READY`), output 7 reporting empty. -/
theorem removeOutput_true_iff_witness :
    demoExperimentOneOutput.m_outputs.Nodup
    ∧ (demoExperimentOneOutput.removeOutput 7 true).1 = true
    ∧ (demoExperimentOneOutput.removeOutput 7 true).2.m_outputs
        = demoExperimentOneOutput.m_outputs.erase 7 :=
  ⟨by decide, by decide,
   ((removeOutput_true_iff demoExperimentOneOutput 7 true (by decide)).2.1 (by decide)).1⟩

/-! ## The ids assigned by `add` -/

/-- In a key-sorted map every key is at most the last one. -/
theorem QMap.le_lastKey (m : QMap) (hsorted : (QMap.keys m).Pairwise (· < ·)) :
    ∀ k ∈ QMap.keys m, ∃ last, QMap.lastKey m = some last ∧ k ≤ last := by
  induction m with
  | nil => intro k hk; simp [QMap.keys] at hk
  | cons entry rest ih =>
    intro k hk
    simp only [QMap.keys, List.map_cons, List.pairwise_cons, List.mem_cons] at hsorted hk
    cases rest with
    | nil =>
      simp only [List.map_nil, List.not_mem_nil, or_false] at hk
      exact ⟨entry.1, by simp [QMap.lastKey], by omega⟩
    | cons second tail =>
      have hlast : QMap.lastKey (entry :: second :: tail) = QMap.lastKey (second :: tail) := by
        simp [QMap.lastKey, List.getLast?_cons_cons]
      rw [hlast]
      rcases hk with hk | hk
      · obtain ⟨last, hl, hle⟩ := ih hsorted.2 second.1 (by simp [QMap.keys])
        have hlt := hsorted.1 second.1 (by simp)
        exact ⟨last, hl, by omega⟩
      · exact ih hsorted.2 k hk

/-- The single-simulation overload of `add`, for a simulation that is not
registered yet: on a key-sorted map the id it assigns is greater than every
id present, and it is 0 on an empty map. -/
theorem ProcessesMgr.add_fresh_id_gt (s : ProcessesMgr) (sim : Simulation)
    (hsorted : (QMap.keys s.m_processes).Pairwise (· < ·))
    (hnew : QMap.key s.m_processes sim (-1) = -1) :
    (∀ k ∈ QMap.keys s.m_processes, k < (s.add sim).2)
    ∧ (s.m_processes = [] → (s.add sim).2 = 0) := by
  unfold ProcessesMgr.add
  simp only [hnew, if_true]
  constructor
  · intro k hk
    obtain ⟨last, hl, hle⟩ := QMap.le_lastKey s.m_processes hsorted k hk
    have hlt : k < last + 1 := by omega
    simpa [hl] using hlt
  · intro hnil
    simp [hnil, QMap.lastKey]

/-- C18: the list overload of `add` reuses the largest id. With simulation 10
registered under id 0, `add` of the list [20, 21] starts at `lastKey()` = 0,
not at `lastKey() + 1`: it returns the ids [0, 1] and stores simulation 20
under id 0, overwriting the entry of simulation 10. The single-simulation
overload assigns id 1 to simulation 20 in the same state. On an empty map the
list overload has no defined result (`lastKey()` of an empty map), where the
single-simulation overload assigns id 0. -/
theorem addList_overwrites_last :
    ((ProcessesMgr.initial 1).run [Event.add 10]).m_processes = [(0, 10)]
    ∧ (((ProcessesMgr.initial 1).run [Event.add 10]).addList [20, 21]).map
        (fun r => (r.2, r.1.m_processes))
      = some ([0, 1], [(0, 20), (1, 21)])
    ∧ (((ProcessesMgr.initial 1).run [Event.add 10]).add 20).2 = 1
    ∧ (((ProcessesMgr.initial 1).run [Event.add 10]).add 20).1.m_processes
      = [(0, 10), (1, 20)]
    ∧ (ProcessesMgr.initial 1).addList [20] = none
    ∧ ((ProcessesMgr.initial 1).add 20).2 = 0 := by
  decide

/-! ## `Project::newExperiment` -/

theorem stdMapFind_insert {E : Type} (m : List (Int × E)) (k : Int) (v : E)
    (h : stdMapContains m k = false) : stdMapFind (stdMapInsert m k v) k = some v := by
  induction m with
  | nil => simp [stdMapInsert, stdMapFind]
  | cons entry rest ih =>
    obtain ⟨k', v'⟩ := entry
    have hne : ¬ k' = k := by
      intro heq
      simp [stdMapContains, heq] at h
    have hrest : stdMapContains rest k = false := by
      simp only [stdMapContains, List.any_cons, Bool.or_eq_false_iff] at h
      exact h.2
    unfold stdMapInsert
    split_ifs with h1 h2
    · simp [stdMapFind]
    · exact absurd h2.symm hne
    · have := ih hrest
      simp only [stdMapFind, List.find?_cons] at this ⊢
      have hb : ((k' == k) = false) := by simpa using hne
      simp only [hb]
      exact this

theorem Project.emit_fields {E : Type} (p : Project E) (signal : ProjectEffect) :
    (p.emit signal).m_experiments = p.m_experiments
    ∧ (p.emit signal).m_hasUnsavedChanges = p.m_hasUnsavedChanges := by
  unfold Project.emit
  split <;> exact ⟨rfl, rfl⟩

theorem uniqueIdError_ne_empty (error : String) :
    error ++ "The Experiment Id must be unique!" ≠ "" := by
  intro h
  have hlen := congrArg String.length h
  simp only [String.length_append] at hlen
  have hpos : 0 < "The Experiment Id must be unique!".length := by decide
  have hzero : "".length = 0 := rfl
  omega

/-- C19: for every project and every non-null inputs, (1) when the experiment
id of the inputs is not used in the project, `newExperiment` returns a
non-null experiment, the one `setInputs` left, whatever flag and error
`setInputs` gave (so also when applying the inputs failed); that experiment is
registered under the id, and the dirty flag is set; (2) when the id is
already used, `newExperiment` returns null with a non-empty error and leaves
the project, its experiment map and dirty flag included, as it was. -/
theorem newExperiment_registers_or_rejects {E I : Type} (ops : ProjectOps E I)
    (p : Project E) (inputs : I) (error : String) :
    (stdMapContains p.m_experiments (ops.expId inputs) = false
      → (p.newExperiment ops (some inputs) error).1
          = some (ops.setInputs (ops.make (ops.expId inputs)) inputs error).2.2
        ∧ stdMapFind (p.newExperiment ops (some inputs) error).2.2.m_experiments
            (ops.expId inputs)
          = some (ops.setInputs (ops.make (ops.expId inputs)) inputs error).2.2
        ∧ (p.newExperiment ops (some inputs) error).2.2.m_hasUnsavedChanges = true)
    ∧ (stdMapContains p.m_experiments (ops.expId inputs) = true
      → (p.newExperiment ops (some inputs) error).1 = none
        ∧ (p.newExperiment ops (some inputs) error).2.1 ≠ ""
        ∧ (p.newExperiment ops (some inputs) error).2.2 = p) := by
  constructor
  · intro h
    unfold Project.newExperiment
    simp only [h, Bool.false_eq_true, if_false]
    refine ⟨trivial, ?_, ?_⟩
    · rw [(Project.emit_fields _ _).1, (Project.emit_fields _ _).1]
      exact stdMapFind_insert _ _ _ h
    · rw [(Project.emit_fields _ _).2, (Project.emit_fields _ _).2]
  · intro h
    unfold Project.newExperiment
    simp only [h, if_true]
    exact ⟨trivial, uniqueIdError_ne_empty error, trivial⟩

/-- C19, at a concrete project: `demoProject` holds id 0; inputs of id 1 with
an unknown model id are registered although `setInputs` fails, and inputs of
id 0 are rejected. -/
theorem newExperiment_registers_or_rejects_witness :
    stdMapContains demoProject.m_experiments (demoProjectOps.expId (1, "unknownModel")) = false
    ∧ (demoProjectOps.setInputs (demoProjectOps.make 1) (1, "unknownModel") "").1 = false
    ∧ (demoProject.newExperiment demoProjectOps (some (1, "unknownModel")) "").1
        = some (1, false)
    ∧ stdMapFind
        (demoProject.newExperiment demoProjectOps (some (1, "unknownModel")) "").2.2.m_experiments
        1 = some (1, false)
    ∧ (demoProject.newExperiment demoProjectOps
        (some (1, "unknownModel")) "").2.2.m_hasUnsavedChanges = true
    ∧ stdMapContains demoProject.m_experiments (demoProjectOps.expId (0, "prisonersDilemma"))
        = true
    ∧ (demoProject.newExperiment demoProjectOps (some (0, "prisonersDilemma")) "").1 = none :=
  ⟨by decide, by decide,
   ((newExperiment_registers_or_rejects demoProjectOps demoProject (1, "unknownModel") "").1
      (by decide)).1,
   ((newExperiment_registers_or_rejects demoProjectOps demoProject (1, "unknownModel") "").1
      (by decide)).2.1,
   ((newExperiment_registers_or_rejects demoProjectOps demoProject (1, "unknownModel") "").1
      (by decide)).2.2,
   by decide,
   ((newExperiment_registers_or_rejects demoProjectOps demoProject (0, "prisonersDilemma")
      "").2 (by decide)).1⟩

/-! ## `Project::init` -/

/-- The flag returned by `Project::init` is true exactly when the error text
after the call is not empty. -/
theorem Project.init_flag {E I : Type} (ops : ProjectOps E I)
    (importExperiments : Project E → String → String → Project E × String)
    (p : Project E) (error : String) (filepath : String) :
    (p.init ops importExperiments error filepath).1
      = !(p.init ops importExperiments error filepath).2.1.isEmpty := by
  rfl

/-- C20: `Project::init` returns the opposite of what the claim says. On the
new project `demoNewProject`, with an empty file path (nothing is imported)
and an empty error text, `init` reports no error and returns false; with a
file path whose import reports an error, it returns true. The last statement
of the function is `return !error.isEmpty();`. -/
theorem project_init_flag_inverted :
    (demoNewProject.init demoProjectOps (fun q _ err => (q, err)) "" "").1 = false
    ∧ (demoNewProject.init demoProjectOps (fun q _ err => (q, err)) "" "").2.1 = ""
    ∧ (demoNewProject.init demoProjectOps
        (fun q _ err => (q, err ++ "Couldn\x27t read the experiments")) "" "missing.csv").1
      = true
    ∧ (demoNewProject.init demoProjectOps
        (fun q _ err => (q, err ++ "Couldn\x27t read the experiments")) "" "missing.csv").2.1
      = "Couldn\x27t read the experiments" := by
  refine ⟨by decide, by decide, by decide, by decide⟩

/-! ## `Project::generateExpId` -/

/-- In a key-sorted experiment map every key is at most the key of the last
entry. -/
theorem stdMap_le_last {E : Type} (m : List (Int × E))
    (hsorted : (m.map Prod.fst).Pairwise (· < ·)) :
    ∀ k ∈ m.map Prod.fst, ∃ last, m.getLast? = some last ∧ k ≤ last.1 := by
  induction m with
  | nil => intro k hk; simp at hk
  | cons entry rest ih =>
    intro k hk
    simp only [List.map_cons, List.pairwise_cons, List.mem_cons] at hsorted hk
    cases rest with
    | nil =>
      simp only [List.map_nil, List.not_mem_nil, or_false] at hk
      exact ⟨entry, by simp, by omega⟩
    | cons second tail =>
      rw [List.getLast?_cons_cons]
      rcases hk with hk | hk
      · obtain ⟨last, hl, hle⟩ := ih hsorted.2 second.1 (by simp)
        have hlt := hsorted.1 second.1 (by simp)
        exact ⟨last, hl, by omega⟩
      · exact ih hsorted.2 k hk

theorem stdMapContains_eq_false {E : Type} (m : List (Int × E)) (id : Int)
    (h : ∀ k ∈ m.map Prod.fst, k ≠ id) : stdMapContains m id = false := by
  unfold stdMapContains
  rw [List.any_eq_false]
  intro entry hentry
  have := h entry.1 (List.mem_map_of_mem Prod.fst hentry)
  simpa using this

/-- C21: for every project (its experiment map in ascending key order, as a
`std::map` is, and its largest id below the largest `int`),
`generateExpId` returns an id that is 0 when the project has no experiments
and otherwise the largest existing experiment id plus 1; the id is not the id
of any experiment of the project, and `newExperiment` with inputs of that id
returns an experiment, not null. -/
theorem generateExpId_fresh {E I : Type} (ops : ProjectOps E I) (p : Project E)
    (hsorted : (p.m_experiments.map Prod.fst).Pairwise (· < ·))
    (hmax : ∀ k ∈ p.m_experiments.map Prod.fst, k < 2147483647) :
    ∃ id, p.generateExpId = some id
      ∧ (p.m_experiments = [] → id = 0)
      ∧ (p.m_experiments ≠ []
          → id - 1 ∈ p.m_experiments.map Prod.fst
            ∧ ∀ k ∈ p.m_experiments.map Prod.fst, k ≤ id - 1)
      ∧ stdMapContains p.m_experiments id = false
      ∧ ∀ (inputs : I) (error : String), ops.expId inputs = id
          → (p.newExperiment ops (some inputs) error).1 ≠ none := by
  have hnew : ∀ id : Int, stdMapContains p.m_experiments id = false
      → ∀ (inputs : I) (error : String), ops.expId inputs = id
        → (p.newExperiment ops (some inputs) error).1 ≠ none := by
    intro id hid inputs error hinp
    unfold Project.newExperiment
    simp only [hinp, hid, Bool.false_eq_true, if_false]
    exact Option.some_ne_none _
  cases hm : p.m_experiments.getLast? with
  | none =>
    have hnil : p.m_experiments = [] := List.getLast?_eq_none_iff.mp hm
    have hc : stdMapContains p.m_experiments 0 = false := by
      simp [hnil, stdMapContains]
    refine ⟨0, ?_, fun _ => rfl, fun hne => absurd hnil hne, hc, hnew 0 hc⟩
    unfold Project.generateExpId
    simp only [hm]
  | some last =>
    have hmem : last ∈ p.m_experiments := List.mem_of_getLast?_eq_some hm
    have hkey : last.1 ∈ p.m_experiments.map Prod.fst := List.mem_map_of_mem Prod.fst hmem
    have hlt : last.1 < 2147483647 := hmax last.1 hkey
    have hle : ∀ k ∈ p.m_experiments.map Prod.fst, k ≤ last.1 := by
      intro k hk
      obtain ⟨last', hl', hle'⟩ := stdMap_le_last p.m_experiments hsorted k hk
      rw [hm] at hl'
      cases hl'
      exact hle'
    have hc : stdMapContains p.m_experiments (last.1 + 1) = false := by
      apply stdMapContains_eq_false
      intro k hk
      have := hle k hk
      omega
    refine ⟨last.1 + 1, ?_, ?_, ?_, hc, hnew _ hc⟩
    · unfold Project.generateExpId
      have hno : ¬ (last.1 + 1 > 2147483647) := by omega
      simp only [hm, hno, if_false]
    · intro hnil
      rw [hnil] at hm
      simp at hm
    · intro _
      refine ⟨by simpa using hkey, ?_⟩
      intro k hk
      have := hle k hk
      omega

/-- C21, at a concrete project: `demoProject` holds the id 0 alone. -/
theorem generateExpId_fresh_witness :
    (demoProject.m_experiments.map Prod.fst).Pairwise (· < ·)
    ∧ (∀ k ∈ demoProject.m_experiments.map Prod.fst, k < 2147483647)
    ∧ demoProject.generateExpId = some 1
    ∧ ∃ id, demoProject.generateExpId = some id
        ∧ (demoProject.m_experiments = [] → id = 0)
        ∧ (demoProject.m_experiments ≠ []
            → id - 1 ∈ demoProject.m_experiments.map Prod.fst
              ∧ ∀ k ∈ demoProject.m_experiments.map Prod.fst, k ≤ id - 1)
        ∧ stdMapContains demoProject.m_experiments id = false
        ∧ ∀ (inputs : Int × String) (error : String), demoProjectOps.expId inputs = id
            → (demoProject.newExperiment demoProjectOps (some inputs) error).1 ≠ none :=
  ⟨by decide, by decide, by decide,
   generateExpId_fresh demoProjectOps demoProject (by decide) (by decide)⟩

/-! ## The completion handler and the running list -/

/-- C22: the completion handler removes the wrong running id. Two worker
threads; 1 is played, then 0: running is [1, 0] and nothing is queued or
marked. When the worker of 0 completes, `m_runningProcesses.removeAt(0)`
removes the entry at index 0, which is id 1: afterwards running is [0], so
the finished id 0 still occurs in running and the other running id 1 does
not. -/
theorem completion_removes_wrong_running :
    ((ProcessesMgr.initial 2).run
        [Event.add 10, Event.add 11, Event.play 1, Event.play 0])
      = { m_processes := [(0, 10), (1, 11)], m_runningProcesses := [1, 0],
          m_queuedProcesses := [], m_processesToKill := [], m_threads := 2,
          trace := [Effect.setProcessId 10 0, Effect.newProcess 0,
                    Effect.setProcessId 11 1, Effect.newProcess 1,
                    Effect.taskSubmitted 1, Effect.taskSubmitted 0] }
    ∧ (((ProcessesMgr.initial 2).run
        [Event.add 10, Event.add 11, Event.play 1, Event.play 0]).threadFinished
          0).m_runningProcesses = [0]
    ∧ (0 : Int) ∈ (((ProcessesMgr.initial 2).run
        [Event.add 10, Event.add 11, Event.play 1, Event.play 0]).threadFinished
          0).m_runningProcesses
    ∧ (1 : Int) ∉ (((ProcessesMgr.initial 2).run
        [Event.add 10, Event.add 11, Event.play 1, Event.play 0]).threadFinished
          0).m_runningProcesses := by
  decide

/-! ## The completion handler and the queue -/

/-- C23: the completion handler admits the head of the queue and leaves it
queued. One worker thread; 0 is played and runs, 1 and 2 are played and
queue: running [0], queued [1, 2], nothing marked to kill. When the worker of
0 completes, the handler admits the head 1 through `play`, whose
`m_queuedProcesses.removeAt(1)` removes the entry at index 1, which is id 2:
afterwards running is [1] and queued is [1], where the old queue without its
head is [2]. The head is both running and queued, and id 2 has lost its
place in the queue. -/
theorem completion_admission_keeps_head_queued :
    ((ProcessesMgr.initial 1).run
        [Event.add 10, Event.add 11, Event.add 12, Event.play 0, Event.play 1,
         Event.play 2])
      = { m_processes := [(0, 10), (1, 11), (2, 12)], m_runningProcesses := [0],
          m_queuedProcesses := [1, 2], m_processesToKill := [], m_threads := 1,
          trace := [Effect.setProcessId 10 0, Effect.newProcess 0,
                    Effect.setProcessId 11 1, Effect.newProcess 1,
                    Effect.setProcessId 12 2, Effect.newProcess 2,
                    Effect.taskSubmitted 0] }
    ∧ (((ProcessesMgr.initial 1).run
        [Event.add 10, Event.add 11, Event.add 12, Event.play 0, Event.play 1,
         Event.play 2]).threadFinished 0).m_runningProcesses = [1]
    ∧ (((ProcessesMgr.initial 1).run
        [Event.add 10, Event.add 11, Event.add 12, Event.play 0, Event.play 1,
         Event.play 2]).threadFinished 0).m_queuedProcesses = [1]
    ∧ (((ProcessesMgr.initial 1).run
        [Event.add 10, Event.add 11, Event.add 12, Event.play 0, Event.play 1,
         Event.play 2]).threadFinished 0).m_queuedProcesses ≠ [2] := by
  decide

/-! ## `Experiment::cloneCachedNodes` -/

/-- C24: for every experiment and trial id (`Utils::clone` returning a copy
equal to its argument), `cloneCachedNodes(trialId)` (1) returns an empty node
set, and changes nothing, when the cached nodes are empty; (2) when they are
not empty and some trial other than `trialId` still has status Unset, returns
nodes equal to the cached ones and leaves the experiment, cached nodes
included, unchanged; (3) when they are not empty and no other trial has
status Unset, returns the cached nodes and leaves the cache empty, nothing
else changed. -/
theorem cloneCachedNodes_cases (clone : List Nat → List Nat) (e : Experiment)
    (trialId : Int) (hclone : ∀ nodes, clone nodes = nodes) :
    (e.m_clonableNodes = []
      → (e.cloneCachedNodes clone trialId).1 = []
        ∧ (e.cloneCachedNodes clone trialId).2 = e)
    ∧ (e.m_clonableNodes ≠ []
      → (∃ it ∈ e.m_trials, (it.1 : Int) ≠ trialId ∧ it.2.status = Status.UNSET)
      → (e.cloneCachedNodes clone trialId).1 = e.m_clonableNodes
        ∧ (e.cloneCachedNodes clone trialId).2 = e)
    ∧ (e.m_clonableNodes ≠ []
      → ¬ (∃ it ∈ e.m_trials, (it.1 : Int) ≠ trialId ∧ it.2.status = Status.UNSET)
      → (e.cloneCachedNodes clone trialId).1 = e.m_clonableNodes
        ∧ (e.cloneCachedNodes clone trialId).2 = { e with m_clonableNodes := [] }) := by
  have hany : e.m_trials.any
        (fun it => decide ((it.1 : Int) ≠ trialId) && decide (it.2.status = Status.UNSET))
        = true
      ↔ ∃ it ∈ e.m_trials, (it.1 : Int) ≠ trialId ∧ it.2.status = Status.UNSET := by
    simp [List.any_eq_true]
  refine ⟨?_, ?_, ?_⟩
  · intro hnil
    unfold Experiment.cloneCachedNodes
    simp [hnil]
  · intro hne hex
    have hemp : e.m_clonableNodes.isEmpty = false := by
      cases hc : e.m_clonableNodes with
      | nil => exact absurd hc hne
      | cons a rest => rfl
    unfold Experiment.cloneCachedNodes
    rw [hemp, if_neg (by simp), if_pos (hany.mpr hex)]
    exact ⟨hclone _, rfl⟩
  · intro hne hex
    have hemp : e.m_clonableNodes.isEmpty = false := by
      cases hc : e.m_clonableNodes with
      | nil => exact absurd hc hne
      | cons a rest => rfl
    unfold Experiment.cloneCachedNodes
    rw [hemp, if_neg (by simp), if_neg (fun h => hex (hany.mp h))]
    exact ⟨rfl, rfl⟩

/-- C24, at a concrete experiment: on `demoSeeded` (cache [1, 2, 3], trial 0
started, trial 1 unset) the call for trial 0 copies the cache and the call
for trial 1, the last unstarted trial, takes it. -/
theorem cloneCachedNodes_cases_witness :
    (∀ nodes : List Nat, (fun ns : List Nat => ns) nodes = nodes)
    ∧ demoSeeded.m_clonableNodes ≠ []
    ∧ (∃ it ∈ demoSeeded.m_trials, (it.1 : Int) ≠ 0 ∧ it.2.status = Status.UNSET)
    ∧ ((demoSeeded.cloneCachedNodes (fun ns => ns) 0).1 = demoSeeded.m_clonableNodes
        ∧ (demoSeeded.cloneCachedNodes (fun ns => ns) 0).2 = demoSeeded)
    ∧ ¬ (∃ it ∈ demoSeeded.m_trials, (it.1 : Int) ≠ 1 ∧ it.2.status = Status.UNSET)
    ∧ ((demoSeeded.cloneCachedNodes (fun ns => ns) 1).1 = demoSeeded.m_clonableNodes
        ∧ (demoSeeded.cloneCachedNodes (fun ns => ns) 1).2
            = { demoSeeded with m_clonableNodes := [] }) :=
  ⟨fun _ => rfl, by decide, by decide,
   (cloneCachedNodes_cases (fun ns => ns) demoSeeded 0 (fun _ => rfl)).2.1
      (by decide) (by decide),
   by decide,
   (cloneCachedNodes_cases (fun ns => ns) demoSeeded 1 (fun _ => rfl)).2.2
      (by decide) (by decide)⟩

end Evoplex
